import Mathlib

/-!
Verification development for the playlist-forge anchor/gap-fill engine.

The TypeScript sources under `core/` and `engine/` are shallowly embedded
below.  External collaborators (the `yt-search` catalog boundary, the
`fuse.js` fuzzy matcher and the Gemini reranker) are modelled as an
explicit environment of oracle functions (`Env`): every possible outcome
of an external call — results, empty results, thrown errors — is a value
of the oracle, so theorems quantified over `Env` cover every behaviour of
the collaborators.  JavaScript string primitives used by the engine are
re-implemented structurally over `List Char` so that all definitions
evaluate inside the kernel; ASCII-range semantics (the only range the
engine's own string constants exercise) are preserved.
-/

namespace PlaylistForge

/-! ## JavaScript string primitives -/

/-- Model of JS `c.toLowerCase()` for a single character (ASCII range,
which is all the engine's keyword constants use). -/
def jsCharToLower (c : Char) : Char :=
  if 65 ≤ c.toNat ∧ c.toNat ≤ 90 then Char.ofNat (c.toNat + 32) else c

/-- Model of JS `s.toLowerCase()`. -/
def jsToLower (s : String) : String :=
  ⟨s.data.map jsCharToLower⟩

/-- JS whitespace test for the characters the engine splits and trims on. -/
def jsIsWs (c : Char) : Bool :=
  c = ' ' ∨ c = '\n' ∨ c = '\t' ∨ c = '\r'

/-- Model of JS `s.trim()`. -/
def jsTrim (s : String) : String :=
  ⟨((s.data.dropWhile jsIsWs).reverse.dropWhile jsIsWs).reverse⟩

/-- Helper for `jsIncludes`: does `needle` occur in `hay`? -/
def listIncludes (needle : List Char) : List Char → Bool
  | [] => needle.isEmpty
  | c :: cs => needle.isPrefixOf (c :: cs) || listIncludes needle cs

/-- Model of JS `s.includes(sub)` (substring containment). -/
def jsIncludes (s sub : String) : Bool :=
  listIncludes sub.data s.data

/-- Model of JS `s.split(/\s+/)` followed by any filtering: splits on
whitespace characters; runs of whitespace produce empty pieces which the
engine always filters away by a length test. -/
def jsSplitWs (s : String) : List String :=
  (s.data.splitOnP jsIsWs).map (fun cs => ⟨cs⟩)

/-- Model of JS `s.slice(0, n)`. -/
def jsSliceTo (s : String) (n : Nat) : String :=
  ⟨s.data.take n⟩

/-- Model of JS `s.replace(/\n/g, " ")`. -/
def jsReplaceNl (s : String) : String :=
  ⟨s.data.map (fun c => if c = '\n' then ' ' else c)⟩

/-- Helper for `jsDedup`, keeping the first occurrence of each element. -/
def jsDedupAux (seen : List String) : List String → List String
  | [] => []
  | x :: xs => if seen.contains x then jsDedupAux seen xs
               else x :: jsDedupAux (seen ++ [x]) xs

/-- Model of JS `[...new Set(xs)]`: deduplicate, keeping first
occurrences in insertion order. -/
def jsDedup (xs : List String) : List String :=
  jsDedupAux [] xs

/-- Model of the JS `x || dflt` idiom on an optional string field:
`undefined` and the empty string are both falsy. -/
def jsOrString (x : Option String) (dflt : String) : String :=
  match x with
  | some s => if s = "" then dflt else s
  | none => dflt

/-- Model of the JS truthiness filter on an optional string ( `filter(Boolean)`
over possibly-missing names): keeps only present, non-empty strings. -/
def jsTruthyString (x : Option String) : Option String :=
  match x with
  | some s => if s = "" then none else some s
  | none => none

/-! ## core/types.ts -/

/-- `VideoSource` from `core/types.ts`. -/
inductive VideoSource where
  | anchor_playlist
  | gap_fill
  | one_shot
  | first_principle
deriving DecidableEq, Repr

/-- `PlaylistEntry` from `core/types.ts`. -/
structure PlaylistEntry where
  position : Nat
  videoId : String
  title : String
  channelName : String
  durationSeconds : Nat
  durationDisplay : String
  topicMatched : String
  source : VideoSource
deriving DecidableEq, Repr

/-- `AnchorVideo` from `core/types.ts`. -/
structure AnchorVideo where
  videoId : String
  title : String
  durationSeconds : Nat
  durationDisplay : String
  position : Nat
deriving DecidableEq, Repr

/-- `AnchorPlaylist` from `core/types.ts`. -/
structure AnchorPlaylist where
  playlistId : String
  playlistTitle : String
  channelName : String
  videoCount : Nat
  videos : List AnchorVideo
  coverageScore : Nat
  matchedTopics : List String
  unmatchedTopics : List String
deriving DecidableEq, Repr

/-- `DurationConfig` from `core/types.ts`. -/
structure DurationConfig where
  minSeconds : Nat
  maxSeconds : Nat
  targetPerTopic : String
deriving DecidableEq, Repr

/-- `DURATION_CONFIGS.from_scratch` from `core/types.ts`. -/
def durationConfigFromScratch : DurationConfig :=
  { minSeconds := 600, maxSeconds := 2700, targetPerTopic := "15-45 min" }

/-- `DURATION_CONFIGS.revision` from `core/types.ts`. -/
def durationConfigRevision : DurationConfig :=
  { minSeconds := 180, maxSeconds := 900, targetPerTopic := "5-15 min" }

/-- `DURATION_CONFIGS.one_shot` from `core/types.ts`. -/
def durationConfigOneShot : DurationConfig :=
  { minSeconds := 2700, maxSeconds := 10800, targetPerTopic := "45-90 min total" }

/-! ## core/searchScraper.ts — candidate type, density scoring, ranking -/

/-- The `duration` sub-object of `VideoCandidate`. -/
structure VideoDuration where
  seconds : Nat
  timestamp : String
deriving DecidableEq, Repr

/-- The `author` sub-object of `VideoCandidate`. -/
structure VideoAuthor where
  name : String
  url : Option String
deriving DecidableEq, Repr

/-- `VideoCandidate` from `core/searchScraper.ts`.  The API-enrichment
fields (`tags`, `category`, `officialTopics`, `channelId`, `likeCount`,
`commentCount`, `transcriptSnippet`) are omitted: the gap-fill pipeline
modelled here never populates them, so they are `undefined` throughout. -/
structure VideoCandidate where
  videoId : String
  title : String
  description : String
  duration : VideoDuration
  views : Nat
  author : VideoAuthor
  densityScore : Option Int
  densityFlags : Option (List String)
deriving DecidableEq, Repr

/-- `WEIGHTS.GITHUB_BOOST`. -/
def GITHUB_BOOST : Int := 50
/-- `WEIGHTS.LONG_VIDEO_BOOST`. -/
def LONG_VIDEO_BOOST : Int := 30
/-- `WEIGHTS.MEDIUM_VIDEO_BOOST`. -/
def MEDIUM_VIDEO_BOOST : Int := 15
/-- `WEIGHTS.DOCUMENTATION_BOOST`. -/
def DOCUMENTATION_BOOST : Int := 25
/-- `WEIGHTS.ACADEMIC_BOOST`. -/
def ACADEMIC_BOOST : Int := 20
/-- `WEIGHTS.EMPTY_DESC_PENALTY`. -/
def EMPTY_DESC_PENALTY : Int := -40
/-- `WEIGHTS.HIGH_VIEW_PENALTY_THRESHOLD`. -/
def HIGH_VIEW_PENALTY_THRESHOLD : Nat := 500000
/-- `WEIGHTS.CLICKBAIT_PENALTY`. -/
def CLICKBAIT_PENALTY : Int := -100

/-- `QUALITY_SIGNALS.github`. -/
def githubSignals : List String :=
  ["github.com", "github.io", "gitlab.com", "bitbucket.org"]

/-- `QUALITY_SIGNALS.colab`. -/
def colabSignals : List String :=
  ["colab.research.google.com", "kaggle.com/code", "jupyter"]

/-- `QUALITY_SIGNALS.documentation`. -/
def documentationSignals : List String :=
  ["documentation", "docs", "api reference", "readme", "implementation"]

/-- `QUALITY_SIGNALS.academic`. -/
def academicSignals : List String :=
  ["paper", "research", "arxiv", "whitepaper", "thesis", "algorithm"]

/-- `QUALITY_SIGNALS.technical`. -/
def technicalSignals : List String :=
  ["source code", "repository", "npm", "pip install", "docker"]

/-- `CLICKBAIT_SIGNALS`. -/
def clickbaitSignals : List String :=
  ["mind-blowing", "you won\x27t believe", "insane", "crazy", "!! ",
   "🔥🔥🔥", "secrets revealed", "changed my life", "in just 5 minutes",
   "watch this before", "nobody tells you"]

/-- Count of uppercase ASCII letters, the `title.match(/[A-Z]/g)` count. -/
def countUppercase (s : String) : Nat :=
  (s.data.filter (fun c => decide (65 ≤ c.toNat ∧ c.toNat ≤ 90))).length

/-- The `QUALITY_SIGNALS.github` loop condition of
`calculateDensityScore` (a `break` after the first hit means the boost
is applied at most once, i.e. iff some signal occurs). -/
def githubHit (video : VideoCandidate) : Bool :=
  githubSignals.any (fun s => jsIncludes (jsToLower video.description) s)

/-- The `QUALITY_SIGNALS.colab` loop condition. -/
def colabHit (video : VideoCandidate) : Bool :=
  colabSignals.any (fun s => jsIncludes (jsToLower video.description) s)

/-- The `QUALITY_SIGNALS.documentation` loop condition (description or
title). -/
def docHit (video : VideoCandidate) : Bool :=
  documentationSignals.any (fun k =>
    jsIncludes (jsToLower video.description) k ||
    jsIncludes (jsToLower video.title) k)

/-- The `QUALITY_SIGNALS.academic` loop condition (description or
title). -/
def acadHit (video : VideoCandidate) : Bool :=
  academicSignals.any (fun k =>
    jsIncludes (jsToLower video.description) k ||
    jsIncludes (jsToLower video.title) k)

/-- The `QUALITY_SIGNALS.technical` loop condition (description only). -/
def techHit (video : VideoCandidate) : Bool :=
  technicalSignals.any (fun k => jsIncludes (jsToLower video.description) k)

/-- The `CLICKBAIT_SIGNALS` loop condition of `calculateDensityScore`:
some known clickbait phrase occurs in the lowercased description or
title. -/
def hasClickbaitSignal (video : VideoCandidate) : Bool :=
  clickbaitSignals.any (fun s =>
    jsIncludes (jsToLower video.description) s ||
    jsIncludes (jsToLower video.title) s)

/-- `calculateDensityScore` from `core/searchScraper.ts`, translated
block by block: each signal block adds its weight and flag at most once
(the JS `for … break` loops, captured by the `…Hit` conditions).  The
all-caps check compares the ratio of uppercase letters to title length
against `0.5`; on the integer counts involved this float comparison is
exactly `2 * caps > length`. -/
def calculateDensityScore (video : VideoCandidate) : Int × List String :=
  -- GitHub/Colab presence (strongest signal)
  let score1 : Int := if githubHit video then 0 + GITHUB_BOOST else 0
  let flags1 : List String := if githubHit video then ["🔗 GitHub Link"] else []
  let score2 := if colabHit video then score1 + GITHUB_BOOST else score1
  let flags2 := if colabHit video then flags1 ++ ["📓 Notebook Link"] else flags1
  -- Documentation keywords
  let score3 := if docHit video then score2 + DOCUMENTATION_BOOST else score2
  let flags3 := if docHit video then flags2 ++ ["📚 Documentation"] else flags2
  -- Academic/Research terms
  let score4 := if acadHit video then score3 + ACADEMIC_BOOST else score3
  let flags4 := if acadHit video then flags3 ++ ["🎓 Academic"] else flags3
  -- Technical depth indicators
  let score5 := if techHit video then score4 + 15 else score4
  let flags5 := if techHit video then flags4 ++ ["⚙️ Technical"] else flags4
  -- Duration scoring
  let score6 := if 900 < video.duration.seconds then score5 + LONG_VIDEO_BOOST
    else if 600 < video.duration.seconds then score5 + MEDIUM_VIDEO_BOOST
    else score5
  let flags6 := if 900 < video.duration.seconds then flags5 ++ ["⏱️ Deep Dive (15+ min)"]
    else if 600 < video.duration.seconds then flags5 ++ ["⏱️ Detailed (10-15 min)"]
    else flags5
  -- Clickbait detection
  let score7 := if hasClickbaitSignal video then score6 + CLICKBAIT_PENALTY else score6
  let flags7 := if hasClickbaitSignal video then flags6 ++ ["⚠️ Clickbait Signal"]
    else flags6
  -- High views + empty/short description
  let score8 := if HIGH_VIEW_PENALTY_THRESHOLD < video.views ∧
      video.description.length < 100 then score7 + EMPTY_DESC_PENALTY else score7
  let flags8 := if HIGH_VIEW_PENALTY_THRESHOLD < video.views ∧
      video.description.length < 100 then flags7 ++ ["⚠️ High Views, Low Info"]
    else flags7
  -- All caps title
  let score9 := if video.title.length < 2 * countUppercase video.title ∧
      10 < video.title.length then score8 - 20 else score8
  let flags9 := if video.title.length < 2 * countUppercase video.title ∧
      10 < video.title.length then flags8 ++ ["⚠️ Aggressive Title"] else flags8
  (score9, flags9)

/-- Sum of the positive signals of `calculateDensityScore` (GitHub,
notebook, documentation, academic, technical, duration bands). -/
def positiveDensityPart (video : VideoCandidate) : Int :=
  (if githubHit video then GITHUB_BOOST else 0) +
  (if colabHit video then GITHUB_BOOST else 0) +
  (if docHit video then DOCUMENTATION_BOOST else 0) +
  (if acadHit video then ACADEMIC_BOOST else 0) +
  (if techHit video then 15 else 0) +
  (if 900 < video.duration.seconds then LONG_VIDEO_BOOST
   else if 600 < video.duration.seconds then MEDIUM_VIDEO_BOOST else 0)

/-- The high-views/short-description penalty of `calculateDensityScore`. -/
def highViewPart (video : VideoCandidate) : Int :=
  if HIGH_VIEW_PENALTY_THRESHOLD < video.views ∧ video.description.length < 100
    then EMPTY_DESC_PENALTY else 0

/-- The mostly-uppercase-title penalty of `calculateDensityScore`. -/
def capsPart (video : VideoCandidate) : Int :=
  if video.title.length < 2 * countUppercase video.title ∧ 10 < video.title.length
    then -20 else 0

/-- The clickbait penalty term of `calculateDensityScore`. -/
def clickbaitPart (video : VideoCandidate) : Int :=
  if hasClickbaitSignal video then CLICKBAIT_PENALTY else 0

/-- The sort key of `rankByDensity`'s comparator: `v.densityScore || 0`. -/
def densityKey (v : VideoCandidate) : Int :=
  v.densityScore.getD 0

/-- The comparator of `rankByDensity` as an ordering relation: `a` may
come before `b` iff `b`'s key does not exceed `a`'s.  JS `Array.sort` is
a stable sort, which `List.insertionSort` by this relation models. -/
def rankRel (a b : VideoCandidate) : Prop :=
  densityKey b ≤ densityKey a

instance : DecidableRel rankRel := fun a b =>
  inferInstanceAs (Decidable (densityKey b ≤ densityKey a))

instance : IsTotal VideoCandidate rankRel :=
  ⟨fun a b => le_total (densityKey b) (densityKey a)⟩

instance : IsTrans VideoCandidate rankRel :=
  ⟨fun _ _ _ h1 h2 => le_trans h2 h1⟩

/-- The `map` step of `rankByDensity`: rescore and record score/flags. -/
def enrichDensity (v : VideoCandidate) : VideoCandidate :=
  { v with densityScore := some (calculateDensityScore v).1,
           densityFlags := some (calculateDensityScore v).2 }

/-- `rankByDensity` from `core/searchScraper.ts`: rescore every
candidate, then stable-sort by density score descending. -/
def rankByDensity (videos : List VideoCandidate) : List VideoCandidate :=
  List.insertionSort rankRel (videos.map enrichDensity)

/-- `filterByDuration` from `core/searchScraper.ts`. -/
def filterByDuration (videos : List VideoCandidate) (minSeconds : Nat) :
    List VideoCandidate :=
  videos.filter (fun v => decide (minSeconds ≤ v.duration.seconds))

/-- One candidate block of `prepareForLLMRerank`.  The enrichment-field
`extraSignals` block is empty in the modelled pipeline (those fields are
never set by the gap filler), so it does not appear. -/
def formatRerankCandidate (i : Nat) (v : VideoCandidate) : String :=
  let descPreview := jsReplaceNl (jsSliceTo v.description 200)
  let joined := match v.densityFlags with
    | some fs => String.intercalate ", " fs
    | none => ""
  let flagsText := if joined = "" then "None" else joined
  "[" ++ toString (i + 1) ++ "] ID: " ++ v.videoId ++
  "\nTitle: " ++ v.title ++
  "\nChannel: " ++ v.author.name ++
  "\nDuration: " ++ v.duration.timestamp ++
  "\nDescription: " ++ descPreview ++ "..." ++
  "\nDensity Flags: " ++ flagsText

/-- `prepareForLLMRerank` from `core/searchScraper.ts`. -/
def prepareForLLMRerank (videos : List VideoCandidate) : String :=
  String.intercalate "\n\n"
    ((videos.take 5).enum.map (fun p => formatRerankCandidate p.1 p.2))

/-! ## core/queryIntelligence.ts — deterministic query understanding -/

/-- `Intent` from `core/queryIntelligence.ts`. -/
inductive Intent where
  | learn_skill
  | understand_concept
  | explore_topic
  | build_project
  | solve_problem
deriving DecidableEq, Repr

/-- `ContentType` from `core/queryIntelligence.ts`. -/
inductive ContentType where
  | tutorial
  | explanation
  | documentary
  | lecture
  | demonstration
  | overview
deriving DecidableEq, Repr

/-- `STOP_WORDS` from `core/queryIntelligence.ts`. -/
def STOP_WORDS : List String :=
  ["a", "an", "the", "of", "in", "on", "at", "to", "for", "with",
   "by", "from", "up", "about", "into", "through", "during", "before",
   "after", "above", "below", "between", "under", "over",
   "and", "but", "or", "nor", "so", "yet",
   "i", "me", "my", "we", "us", "our", "you", "your", "he", "she",
   "it", "they", "them", "their", "this", "that", "these", "those",
   "is", "are", "was", "were", "be", "been", "being", "have", "had",
   "has", "do", "does", "did", "will", "would", "could", "should",
   "may", "might", "shall", "can", "need", "must",
   "very", "really", "just", "also", "like", "want", "please",
   "help", "know", "get", "got", "let", "thing", "stuff", "something",
   "how", "what", "why", "when", "where", "which", "who"]

/-- `INTENT_SIGNALS` from `core/queryIntelligence.ts`, in the object's
insertion order (the order `Object.entries` iterates). -/
def intentSignalOrder : List (Intent × List String) :=
  [(Intent.learn_skill,
    ["learn", "tutorial", "course", "teach", "training", "master",
     "practice", "beginner", "start"]),
   (Intent.understand_concept,
    ["understand", "explain", "concept", "theory", "meaning",
     "definition", "what", "why"]),
   (Intent.explore_topic,
    ["history", "evolution", "story", "journey", "culture",
     "civilization", "era", "age", "period", "ancient", "modern"]),
   (Intent.build_project,
    ["build", "create", "make", "develop", "implement", "code",
     "program", "design", "project", "app"]),
   (Intent.solve_problem,
    ["fix", "solve", "debug", "error", "issue", "problem",
     "troubleshoot", "broken", "crash"])]

/-- `TIMEFRAME_SIGNALS` from `core/queryIntelligence.ts`, in insertion
order. -/
def timeframeSignalOrder : List (String × List String) :=
  [("ancient",
    ["ancient", "prehistoric", "classical", "antiquity", "bc", "bce",
     "old", "medieval", "middle ages"]),
   ("modern",
    ["modern", "contemporary", "current", "today", "2024", "2025",
     "2026", "latest", "new", "recent"]),
   ("historical",
    ["history", "historical", "century", "era", "age", "period",
     "dynasty", "empire", "kingdom"])]

/-- `ACTION_WORDS` from `core/queryIntelligence.ts`. -/
def ACTION_WORDS : List String :=
  ["trade", "build", "create", "design", "fight", "conquer", "discover",
   "invent", "cook", "paint", "compose", "write", "calculate", "analyze",
   "compare", "migrate", "evolve", "grow", "shrink", "collapse", "rise",
   "fall", "spread", "connect", "separate", "merge", "split"]

/-- The inner filter of subject extraction (`pureIntentWords`). -/
def pureIntentWords : List String :=
  ["learn", "understand", "explain", "build", "create", "teach", "fix",
   "solve", "debug", "start", "make"]

/-- `ExtractedMeaning` from `core/queryIntelligence.ts`. -/
structure ExtractedMeaning where
  subjects : List String
  action : Option String
  timeframe : Option String
  intent : Intent
  cleanedQuery : String
  contentType : ContentType
deriving DecidableEq, Repr

/-- `SmartQuery` from `core/queryIntelligence.ts`. -/
structure SmartQuery where
  primary : String
  fallback : String
  subjects : List String
deriving DecidableEq, Repr

/-- Intent detection: the first intent (in object order) whose signal
count strictly exceeds all earlier ones, defaulting to
`understand_concept` with score 0. -/
def detectIntent (normalized : String) : Intent :=
  (intentSignalOrder.foldl
    (fun acc p =>
      let score := (p.2.filter (fun s => jsIncludes normalized s)).length
      if acc.2 < score then (p.1, score) else acc)
    (Intent.understand_concept, 0)).1

/-- Timeframe detection: first timeframe (in object order) with a signal
occurring in the query. -/
def detectTimeframe (normalized : String) : Option String :=
  (timeframeSignalOrder.find?
    (fun p => p.2.any (fun s => jsIncludes normalized s))).map (fun p => p.1)

/-- `deriveContentType` from `core/queryIntelligence.ts`. -/
def deriveContentType (intent : Intent) (timeframe : Option String) :
    ContentType :=
  if timeframe = some "ancient" ∨ timeframe = some "historical" then
    ContentType.documentary
  else
    match intent with
    | Intent.learn_skill => ContentType.tutorial
    | Intent.build_project => ContentType.demonstration
    | Intent.solve_problem => ContentType.tutorial
    | Intent.explore_topic =>
        if timeframe.isSome then ContentType.documentary else ContentType.overview
    | Intent.understand_concept => ContentType.explanation

/-- `extractMeaning` from `core/queryIntelligence.ts`. -/
def extractMeaning (rawQuery : String) : ExtractedMeaning :=
  let normalized := jsTrim (jsToLower rawQuery)
  let words := (jsSplitWs normalized).filter (fun w => 1 < w.length)
  let intent := detectIntent normalized
  let timeframe := detectTimeframe normalized
  let action := words.find? (fun w => ACTION_WORDS.contains w)
  let subjects := (words.filter (fun w => !STOP_WORDS.contains w)).filter
    (fun w => !pureIntentWords.contains w)
  let cleanedParts := jsDedup subjects
  let cleanedQuery := String.intercalate " " cleanedParts
  let contentType := deriveContentType intent timeframe
  { subjects := jsDedup subjects, action := action, timeframe := timeframe,
    intent := intent, cleanedQuery := cleanedQuery, contentType := contentType }

/-- `CONTENT_SUFFIXES` from `core/queryIntelligence.ts`. -/
def contentSuffix : ContentType → String
  | ContentType.tutorial => "tutorial guide"
  | ContentType.explanation => "explained overview"
  | ContentType.documentary => "documentary"
  | ContentType.lecture => "lecture course"
  | ContentType.demonstration => "project walkthrough"
  | ContentType.overview => "introduction overview"

/-- `buildSmartQuery` from `core/queryIntelligence.ts`. -/
def buildSmartQuery (meaning : ExtractedMeaning) (modifier : Option String) :
    SmartQuery :=
  let suffix :=
    if modifier = some "detailed" then "full course deep dive"
    else if modifier = some "practical" then "hands-on project build"
    else if modifier = some "short" then "explained quickly"
    else contentSuffix meaning.contentType
  { primary := jsTrim (meaning.cleanedQuery ++ " " ++ suffix),
    fallback := String.intercalate " " (meaning.subjects.take 3),
    subjects := meaning.subjects }

/-- `analyzeQuery` from `core/queryIntelligence.ts` (meaning + query). -/
def analyzeQuery (rawQuery : String) (modifier : Option String) :
    ExtractedMeaning × SmartQuery :=
  let meaning := extractMeaning rawQuery
  (meaning, buildSmartQuery meaning modifier)

/-! ## External boundary — the oracle environment

`yt-search`, `fuse.js` and the Gemini call are external collaborators.
Each is modelled as a function in `Env`; a `.error` value models a
thrown exception at that boundary.  Theorems quantified over `Env` hold
under every outcome of the external calls. -/

/-- One raw item of a `yt-search` video result (duck-typed in JS: every
field beyond the id/title may be missing). -/
structure RawVideo where
  videoId : String
  title : String
  description : Option String
  durationSeconds : Option Nat
  durationTimestamp : Option String
  views : Option Nat
  authorName : Option String
  authorUrl : Option String
deriving DecidableEq, Repr

/-- One raw playlist hit of a `yt-search` result. -/
structure PlaylistHit where
  listId : String
  title : String
  authorName : Option String
deriving DecidableEq, Repr

/-- The parts of a `yt-search` response the engine reads; a missing
`videos`/`playlists` field is modelled as the empty list (the code
guards with `|| []`). -/
structure SearchOutcome where
  videos : List RawVideo
  playlists : List PlaylistHit
deriving DecidableEq, Repr

/-- `RerankerInput` from `core/geminiReranker.ts`. -/
structure RerankerInput where
  candidates : String
  userRole : String
  topic : String
  experienceLevel : String
deriving DecidableEq, Repr

/-- `RerankerResult` from `core/geminiReranker.ts`. -/
structure RerankerResult where
  winnerId : Option String
  reasoning : Option String
  fallbackUsed : Bool
deriving DecidableEq, Repr

/-- Oracle environment for all external collaborators.
  * `ytSearchQ q` — outcome of `ytSearch(q)` (`.error` = thrown).
  * `fetchPlaylist id` — outcome of `ytSearch({listId: id})`:
    `.error` = thrown, `.ok none` = missing `videos` field.
  * `fuseAnchor videos topic` — outcome of the `fuse.js` lookup in
    `mapTopicsToAnchor`: `some v` means the best result exists, has a
    defined score, and that score is below the 0.4 threshold.
  * `fuseTitles titles topic` — the same matcher contract used by
    `scorePlaylistCoverage`: `true` means best score below 0.4.
  * `hasGeminiKey` — whether `GEMINI_API_KEY` is set.
  * `gemini input` — outcome of the Gemini call plus JSON parsing:
    `.error` = thrown, `.ok none` = unparseable / no `winnerId` field,
    `.ok (some w)` = parsed `winnerId` string `w`. -/
structure Env where
  ytSearchQ : String → Except Unit SearchOutcome
  fetchPlaylist : String → Except Unit (Option (List RawVideo))
  fuseAnchor : List AnchorVideo → String → Option AnchorVideo
  fuseTitles : List String → String → Bool
  hasGeminiKey : Bool
  gemini : RerankerInput → Except Unit (Option String)

/-- `vibeCheckRerank` from `core/geminiReranker.ts`: missing key,
thrown error, unparseable output or a `winnerId` that is not an 11-char
string all fall back to a `none` winner; the function never throws. -/
def vibeCheckRerank (env : Env) (input : RerankerInput) : RerankerResult :=
  if env.hasGeminiKey = false then
    { winnerId := none, reasoning := none, fallbackUsed := true }
  else
    match env.gemini input with
    | Except.error _ => { winnerId := none, reasoning := none, fallbackUsed := true }
    | Except.ok none => { winnerId := none, reasoning := none, fallbackUsed := true }
    | Except.ok (some w) =>
        if w.length = 11 then
          { winnerId := some w, reasoning := some "Selected by Gemini Reranker",
            fallbackUsed := false }
        else
          { winnerId := none, reasoning := none, fallbackUsed := true }

/-! ## engine/preferences.ts -/

/-- `SearchModifiers` from `engine/preferences.ts`. -/
structure SearchModifiers where
  languageSuffix : String
  experienceLevel : String
  duration : DurationConfig
  modeLabel : String
  modeKeywords : String
deriving DecidableEq, Repr

/-! ## engine/gapFiller.ts -/

/-- `GapFillResult` from `engine/gapFiller.ts`. -/
structure GapFillResult where
  entries : List PlaylistEntry
  gapsFound : Nat
  gapsFilled : Nat
  gapsFailed : List String
deriving DecidableEq, Repr

/-- `TopicMapping` from `engine/gapFiller.ts`.  The write-only
`matchScore` field (stored but never read) is omitted. -/
structure TopicMapping where
  topic : String
  position : Nat
  anchorVideo : Option AnchorVideo
  isGap : Bool
deriving DecidableEq, Repr

/-- `USE_RERANKER` from `engine/gapFiller.ts`. -/
def USE_RERANKER : Bool := true

/- `MATCH_THRESHOLD` is 0.4; the threshold test itself lives inside the
`fuseAnchor`/`fuseTitles` oracles (`Env`). -/

/-- The candidate conversion at the top of `pickBestVideo`: take the
first 15 raw results and normalise missing fields exactly as the JS
`||` defaults do. -/
def toCandidate (v : RawVideo) : VideoCandidate :=
  { videoId := v.videoId,
    title := v.title,
    description := v.description.getD "",
    duration := { seconds := v.durationSeconds.getD 0,
                  timestamp := jsOrString v.durationTimestamp "0:00" },
    views := v.views.getD 0,
    author := { name := jsOrString v.authorName "Unknown", url := v.authorUrl },
    densityScore := none,
    densityFlags := none }

/-- The converted candidate pool of `pickBestVideo` (`slice(0, 15)`). -/
def candidatesOf (rawVideos : List RawVideo) : List VideoCandidate :=
  (rawVideos.take 15).map toCandidate

/-- The duration-filter stage of `pickBestVideo`: keep candidates inside
the caller's window; if that empties the pool, relax to a 60-second
floor only. -/
def durationPool (candidates : List VideoCandidate) (d : DurationConfig) :
    List VideoCandidate :=
  let filtered := (filterByDuration candidates d.minSeconds).filter
    (fun v => decide (v.duration.seconds ≤ d.maxSeconds))
  if filtered.isEmpty then filterByDuration candidates 60 else filtered

/-- The ranked pool `pickBestVideo` chooses from. -/
def rankedPool (rawVideos : List RawVideo) (modifiers : SearchModifiers) :
    List VideoCandidate :=
  rankByDensity (durationPool (candidatesOf rawVideos) modifiers.duration)

/-- The reranker request `pickBestVideo` submits (top 5 of the ranked
pool, formatted, with fixed role "Student"). -/
def rerankInputFor (ranked : List VideoCandidate) (topic : String)
    (modifiers : SearchModifiers) : RerankerInput :=
  { candidates := prepareForLLMRerank (ranked.take 5),
    userRole := "Student",
    topic := topic,
    experienceLevel := modifiers.experienceLevel }

/-- The `PlaylistEntry` built from the winning candidate at the end of
`pickBestVideo`. -/
def entryFor (winner : VideoCandidate) (topic : String) (position : Nat) :
    PlaylistEntry :=
  { position := position,
    videoId := winner.videoId,
    title := winner.title,
    channelName := winner.author.name,
    durationSeconds := winner.duration.seconds,
    durationDisplay := winner.duration.timestamp,
    topicMatched := topic,
    source := VideoSource.gap_fill }

/-- `pickBestVideo` from `engine/gapFiller.ts`: convert, duration-filter
(with relaxation), rank by density, optionally consult the reranker on
the top 5 when at least 3 candidates are ranked, then look the winner id
up in the full ranked pool, defaulting to the top-ranked candidate. -/
def pickBestVideo (env : Env) (rawVideos : List RawVideo) (topic : String)
    (modifiers : SearchModifiers) (position : Nat) : Option PlaylistEntry :=
  let pool := durationPool (candidatesOf rawVideos) modifiers.duration
  if pool.isEmpty then none
  else
    match rankByDensity pool with
    | [] => none
    | r0 :: rest =>
      let winnerId0 := r0.videoId
      let winnerId :=
        if USE_RERANKER && decide (3 ≤ (r0 :: rest).length) then
          match (vibeCheckRerank env
              (rerankInputFor (r0 :: rest) topic modifiers)).winnerId with
          | some w => w
          | none => winnerId0
        else winnerId0
      let winner := ((r0 :: rest).find? (fun v => v.videoId == winnerId)).getD r0
      some (entryFor winner topic position)

/-- The contextualised primary query of `searchForTopic`:
`analyzeQuery(subject + " " + topic).smartQuery.primary` with the
language suffix appended (`filter(Boolean).join(" ")`). -/
def gapSearchQuery (topic subject : String) (modifiers : SearchModifiers) :
    String :=
  let contextualTopic := subject ++ " " ++ topic
  let smartQuery := (analyzeQuery contextualTopic none).2
  String.intercalate " "
    (([smartQuery.primary, modifiers.languageSuffix]).filter (fun s => s ≠ ""))

/-- The simpler fallback query of `searchForTopic`. -/
def gapFallbackQuery (topic : String) (modifiers : SearchModifiers) : String :=
  jsTrim (topic ++ " " ++ modifiers.languageSuffix)

/-- `searchForTopic` from `engine/gapFiller.ts`, instrumented with the
list of catalog queries it issues.  The whole body sits in a `try` whose
`catch` returns `null`, so a thrown search is `none`; an empty first
result triggers exactly one retry with the simpler query. -/
def searchForTopicT (env : Env) (topic subject : String)
    (modifiers : SearchModifiers) (position : Nat) :
    Option PlaylistEntry × List String :=
  let searchQuery := gapSearchQuery topic subject modifiers
  let fallbackQuery := gapFallbackQuery topic modifiers
  match env.ytSearchQ searchQuery with
  | Except.error _ => (none, [searchQuery])
  | Except.ok result =>
    if result.videos.isEmpty then
      match env.ytSearchQ fallbackQuery with
      | Except.error _ => (none, [searchQuery, fallbackQuery])
      | Except.ok fallbackResult =>
        if fallbackResult.videos.isEmpty then
          (none, [searchQuery, fallbackQuery])
        else
          (pickBestVideo env fallbackResult.videos topic modifiers position,
           [searchQuery, fallbackQuery])
    else
      (pickBestVideo env result.videos topic modifiers position, [searchQuery])

/-- `searchForTopic` proper (result only). -/
def searchForTopic (env : Env) (topic subject : String)
    (modifiers : SearchModifiers) (position : Nat) : Option PlaylistEntry :=
  (searchForTopicT env topic subject modifiers position).1

/-- `mapTopicsToAnchor` from `engine/gapFiller.ts`: every TOC topic at
its index either matches an anchor video below threshold (oracle `some`)
or is a gap. -/
def mapTopicsToAnchor (fuse : List AnchorVideo → String → Option AnchorVideo)
    (tableOfContents : List String) (anchorVideos : List AnchorVideo) :
    List TopicMapping :=
  tableOfContents.enum.map (fun p =>
    match fuse anchorVideos p.2 with
    | some av => { topic := p.2, position := p.1, anchorVideo := some av,
                   isGap := false }
    | none => { topic := p.2, position := p.1, anchorVideo := none,
                isGap := true })

/-- The anchor-sourced entry emitted by `resequence`. -/
def anchorEntryFor (anchor : AnchorPlaylist) (m : TopicMapping)
    (av : AnchorVideo) : PlaylistEntry :=
  { position := m.position,
    videoId := av.videoId,
    title := av.title,
    channelName := anchor.channelName,
    durationSeconds := av.durationSeconds,
    durationDisplay := av.durationDisplay,
    topicMatched := m.topic,
    source := VideoSource.anchor_playlist }

/-- The merge walk of `resequence`: anchor video if matched, else the
gap-filled entry for this position if one exists, else skip.
`gapEntries` is the JS `Map` as an association list (its keys — gap
positions — are pairwise distinct). -/
def mergeStep (anchor : AnchorPlaylist) (gapEntries : List (Nat × PlaylistEntry)) :
    List TopicMapping → List PlaylistEntry
  | [] => []
  | m :: ms =>
    match m.isGap, m.anchorVideo with
    | false, some av => anchorEntryFor anchor m av :: mergeStep anchor gapEntries ms
    | _, _ =>
      match gapEntries.lookup m.position with
      | some e => e :: mergeStep anchor gapEntries ms
      | none => mergeStep anchor gapEntries ms

/-- The defensive position sort of `resequence` (JS stable `sort` by
`a.position - b.position`). -/
def positionRel (a b : PlaylistEntry) : Prop :=
  a.position ≤ b.position

instance : DecidableRel positionRel := fun a b =>
  inferInstanceAs (Decidable (a.position ≤ b.position))

instance : IsTotal PlaylistEntry positionRel :=
  ⟨fun a b => Nat.le_total a.position b.position⟩

instance : IsTrans PlaylistEntry positionRel :=
  ⟨fun _ _ _ h1 h2 => Nat.le_trans h1 h2⟩

/-- The sort step of `resequence`. -/
def sortByPosition (entries : List PlaylistEntry) : List PlaylistEntry :=
  List.insertionSort positionRel entries

/-- The final renumbering of `resequence`: positions become the output
indices `0, 1, 2, …`. -/
def renumber (entries : List PlaylistEntry) : List PlaylistEntry :=
  entries.enum.map (fun p => { p.2 with position := p.1 })

/-- `resequence` from `engine/gapFiller.ts`. -/
def resequence (mappings : List TopicMapping) (anchor : AnchorPlaylist)
    (gapEntries : List (Nat × PlaylistEntry)) : List PlaylistEntry :=
  renumber (sortByPosition (mergeStep anchor gapEntries mappings))

/-- One iteration of the per-gap search loop of `fillGaps`: a resolved
entry goes into the position-keyed map, a failure into `gapsFailed`. -/
def gapStep (env : Env) (subject : String) (modifiers : SearchModifiers)
    (acc : List String × List (Nat × PlaylistEntry)) (gap : TopicMapping) :
    List String × List (Nat × PlaylistEntry) :=
  match searchForTopic env gap.topic subject modifiers gap.position with
  | some entry => (acc.1, acc.2 ++ [(gap.position, entry)])
  | none => (acc.1 ++ [gap.topic], acc.2)

/-- The per-gap search loop of `fillGaps`: accumulate failed topics and
the position-keyed map of resolved entries, in gap order. -/
def gapLoop (env : Env) (subject : String) (modifiers : SearchModifiers)
    (gaps : List TopicMapping) : List String × List (Nat × PlaylistEntry) :=
  gaps.foldl (gapStep env subject modifiers) ([], [])

/-- `fillGaps` from `engine/gapFiller.ts`.  `gapsFilled` is the size of
the gap-entry map; its keys (gap positions) are pairwise distinct, so
the association-list length models `Map.size` exactly. -/
def fillGaps (env : Env) (anchor : AnchorPlaylist)
    (tableOfContents : List String) (subject : String)
    (modifiers : SearchModifiers) : GapFillResult :=
  let mappings := mapTopicsToAnchor env.fuseAnchor tableOfContents anchor.videos
  let gaps := mappings.filter (fun m => m.isGap)
  let r := gapLoop env subject modifiers gaps
  { entries := resequence mappings anchor r.2,
    gapsFound := gaps.length,
    gapsFilled := r.2.length,
    gapsFailed := r.1 }

/-- One iteration of the `buildFromScratch` loop: a resolved topic is
appended to the entries, a failure to `gapsFailed`. -/
def scratchStep (env : Env) (subject : String) (modifiers : SearchModifiers)
    (acc : List PlaylistEntry × List String) (p : Nat × String) :
    List PlaylistEntry × List String :=
  match searchForTopic env p.2 subject modifiers p.1 with
  | some entry => (acc.1 ++ [entry], acc.2)
  | none => (acc.1, acc.2 ++ [p.2])

/-- `buildFromScratch` from `engine/gapFiller.ts`: search every topic at
its index; successes are appended in order (keeping the position given
at search time — there is no renumbering step here), failures are
recorded in `gapsFailed`. -/
def buildFromScratch (env : Env) (tableOfContents : List String)
    (subject : String) (modifiers : SearchModifiers) : GapFillResult :=
  let r := tableOfContents.enum.foldl (scratchStep env subject modifiers) ([], [])
  { entries := r.1,
    gapsFound := tableOfContents.length,
    gapsFilled := r.1.length,
    gapsFailed := r.2 }

/-! ## engine/anchorHunter.ts -/

/-- `AnchorHuntResult` from `engine/anchorHunter.ts`. -/
structure AnchorHuntResult where
  found : Bool
  anchor : Option AnchorPlaylist
  fallbackChannels : Option (List String)
  searchesPerformed : Nat
deriving Repr

/-- `PlaylistVideoItem` from `engine/anchorHunter.ts`. -/
structure PlaylistVideoItem where
  videoId : String
  title : String
  durationSeconds : Option Nat
  durationTimestamp : Option String
deriving DecidableEq, Repr

/-- `MIN_COVERAGE_THRESHOLD * 100` from `engine/anchorHunter.ts`. -/
def MIN_COVERAGE_PCT : Nat := 50

/-- `CoverageScore` from `engine/anchorHunter.ts`. -/
structure CoverageScore where
  coverageScore : Nat
  matchedTopics : List String
  unmatchedTopics : List String
deriving DecidableEq, Repr

/-- Round a rational to the nearest integer, ties to even: the rounding
IEEE 754 applies to the scaled significand of every arithmetic result. -/
def rne (t : ℚ) : ℤ :=
  if Int.fract t < 1/2 then ⌊t⌋
  else if 1/2 < Int.fract t then ⌊t⌋ + 1
  else if ⌊t⌋ % 2 = 0 then ⌊t⌋ else ⌊t⌋ + 1

/-- IEEE 754 binary64 rounding (round to nearest, ties to even) of a
positive rational in the normal range: the value is scaled into the
binade of 53-bit integers, the scaled value is rounded to an integer
significand by `rne`, and the result is scaled back.  This is the value
JS double arithmetic produces for every operation the coverage formula
performs (the intermediate results of that formula stay far from
overflow and from the subnormal range).  Non-positive inputs (only 0
occurs here) map to 0. -/
def fl (q : ℚ) : ℚ :=
  if q ≤ 0 then 0
  else (rne (q * 2 ^ (52 - Int.log 2 q)) : ℚ) * 2 ^ (Int.log 2 q - 52)

/-- `Math.round` (ECMA-262): the integer nearest to the exact value of
the argument, half toward positive infinity; for the non-negative
arguments that arise here that is the floor of the value plus one
half. -/
def jsMathRound (x : ℚ) : ℤ := ⌊x + 1/2⌋

/-- `Math.round((m / n) * 100)` exactly as the program computes it: the
quotient `m / n` is rounded to binary64, the product with 100 is rounded
to binary64 again, and `Math.round` rounds the exact value of the
resulting double.  At boundary inputs this differs from rounding the
exact rational `m / n * 100` — see `specRoundPct` and
`C4_counterexample`.  For `n = 0` the JS expression is `NaN`; this
model returns 0, and every comparison the engine performs on the score
(`> best`, `≥ 50`, `≥ 80`) is false for both `NaN` and 0, so control
flow is preserved. -/
def jsRoundPct (m n : Nat) : Nat :=
  (jsMathRound (fl (fl ((m : ℚ) / n) * 100))).toNat

/-- The formula `round(matched / total * 100)` of the spec read as exact
rational arithmetic with halves rounded up — a second definition
following the words of the spec, to compare with the binary64
computation `jsRoundPct` the program performs. -/
def specRoundPct (m n : Nat) : Nat :=
  (200 * m + n) / (2 * n)

/-- `scorePlaylistCoverage` from `engine/anchorHunter.ts`: run every TOC
topic through the matcher against the playlist's video titles and turn
the matched count into a rounded percentage. -/
def scorePlaylistCoverage (fuseTitles : List String → String → Bool)
    (playlistVideos : List PlaylistVideoItem) (tableOfContents : List String) :
    CoverageScore :=
  let titles := playlistVideos.map (fun v => v.title)
  let matchedTopics := tableOfContents.filter (fun t => fuseTitles titles t)
  let unmatchedTopics := tableOfContents.filter (fun t => !fuseTitles titles t)
  { coverageScore := jsRoundPct matchedTopics.length tableOfContents.length,
    matchedTopics := matchedTopics,
    unmatchedTopics := unmatchedTopics }

/-- `getPlaylistVideos` from `engine/anchorHunter.ts`: a thrown fetch or
a missing `videos` field both yield the empty list (the internal
`catch`). -/
def getPlaylistVideos (env : Env) (playlistId : String) :
    List PlaylistVideoItem :=
  match env.fetchPlaylist playlistId with
  | Except.error _ => []
  | Except.ok none => []
  | Except.ok (some vs) =>
      vs.map (fun v =>
        { videoId := v.videoId, title := v.title,
          durationSeconds := v.durationSeconds,
          durationTimestamp := v.durationTimestamp })

/-- `findPromisingChannels` from `engine/anchorHunter.ts`. -/
def findPromisingChannels (env : Env) (subject languageSuffix : String) :
    List String :=
  let query := jsTrim (subject ++ " tutorial " ++ languageSuffix)
  match env.ytSearchQ query with
  | Except.error _ => []
  | Except.ok result =>
      (jsDedup ((result.videos.take 10).filterMap
        (fun v => jsTruthyString v.authorName))).take 5

/-- The anchor record built when a playlist becomes the running best. -/
def mkAnchorPlaylist (p : PlaylistHit) (vids : List PlaylistVideoItem)
    (scored : CoverageScore) : AnchorPlaylist :=
  { playlistId := p.listId,
    playlistTitle := p.title,
    channelName := jsOrString p.authorName "Unknown",
    videoCount := vids.length,
    videos := vids.enum.map (fun q =>
      { videoId := q.2.videoId, title := q.2.title,
        durationSeconds := q.2.durationSeconds.getD 0,
        durationDisplay := jsOrString q.2.durationTimestamp "0:00",
        position := q.1 }),
    coverageScore := scored.coverageScore,
    matchedTopics := scored.matchedTopics,
    unmatchedTopics := scored.unmatchedTopics }

/-- The anchor that evaluating playlist `p` would produce. -/
def anchorFor (env : Env) (tableOfContents : List String) (p : PlaylistHit) :
    AnchorPlaylist :=
  let vids := getPlaylistVideos env p.listId
  mkAnchorPlaylist p vids (scorePlaylistCoverage env.fuseTitles vids tableOfContents)

/-- Running state of the playlist-scoring loop of `huntForAnchor`. -/
structure HuntState where
  best : Option AnchorPlaylist
  bestScore : Nat
  searches : Nat
deriving Repr

/-- The playlist-scoring loop of `huntForAnchor`: fetch each playlist's
videos (one search per playlist, even when skipped), skip playlists with
fewer than 3 videos, keep the strictly-best coverage score seen so far,
and stop as soon as the running best reaches 80. -/
def huntLoop (env : Env) (tableOfContents : List String) :
    HuntState → List PlaylistHit → HuntState
  | st, [] => st
  | st, p :: ps =>
    let vids := getPlaylistVideos env p.listId
    let st0 : HuntState := { st with searches := st.searches + 1 }
    if vids.length < 3 then huntLoop env tableOfContents st0 ps
    else
      let scored := scorePlaylistCoverage env.fuseTitles vids tableOfContents
      let st1 :=
        if st0.bestScore < scored.coverageScore then
          { best := some (mkAnchorPlaylist p vids scored),
            bestScore := scored.coverageScore,
            searches := st0.searches }
        else st0
      if 80 ≤ st1.bestScore then st1
      else huntLoop env tableOfContents st1 ps

/-- `huntForAnchor` from `engine/anchorHunter.ts`. -/
def huntForAnchor (env : Env) (subject : String)
    (tableOfContents : List String) (languageSuffix : String) :
    AnchorHuntResult :=
  let playlistQuery := jsTrim (subject ++ " full course playlist " ++ languageSuffix)
  match env.ytSearchQ playlistQuery with
  | Except.error _ =>
      { found := false, anchor := none, fallbackChannels := none,
        searchesPerformed := 0 }
  | Except.ok searchResult =>
    let playlists := searchResult.playlists
    if playlists.isEmpty then
      { found := false, anchor := none,
        fallbackChannels := some (findPromisingChannels env subject languageSuffix),
        searchesPerformed := 2 }
    else
      let st := huntLoop env tableOfContents
        { best := none, bestScore := 0, searches := 1 } (playlists.take 5)
      match st.best with
      | some bestAnchor =>
        if MIN_COVERAGE_PCT ≤ st.bestScore then
          { found := true, anchor := some bestAnchor, fallbackChannels := none,
            searchesPerformed := st.searches }
        else
          { found := false, anchor := none,
            fallbackChannels := some ((playlists.take 3).filterMap
              (fun p => jsTruthyString p.authorName)),
            searchesPerformed := st.searches }
      | none =>
          { found := false, anchor := none,
            fallbackChannels := some ((playlists.take 3).filterMap
              (fun p => jsTruthyString p.authorName)),
            searchesPerformed := st.searches }

/-- The list of playlists `huntForAnchor` actually evaluates (top 5,
skipping those with fewer than 3 fetched videos, cut after the first
coverage score of at least 80), paired with their coverage scores. -/
def huntEvaluated (env : Env) (tableOfContents : List String) :
    List PlaylistHit → List (PlaylistHit × Nat)
  | [] => []
  | p :: ps =>
    let vids := getPlaylistVideos env p.listId
    if vids.length < 3 then huntEvaluated env tableOfContents ps
    else
      let c := (scorePlaylistCoverage env.fuseTitles vids tableOfContents).coverageScore
      if 80 ≤ c then [(p, c)]
      else (p, c) :: huntEvaluated env tableOfContents ps

/-! ## Helper views used by the verification layer -/

/-- The `gapsFailed` contribution of one gap in the `fillGaps` loop. -/
def gapFailFn (env : Env) (subject : String) (modifiers : SearchModifiers)
    (g : TopicMapping) : Option String :=
  match searchForTopic env g.topic subject modifiers g.position with
  | some _ => none
  | none => some g.topic

/-- The gap-entry-map contribution of one gap in the `fillGaps` loop. -/
def gapEntryFn (env : Env) (subject : String) (modifiers : SearchModifiers)
    (g : TopicMapping) : Option (Nat × PlaylistEntry) :=
  (searchForTopic env g.topic subject modifiers g.position).map
    (fun e => (g.position, e))

/-- The entry contribution of one indexed topic in `buildFromScratch`. -/
def scratchEntryFn (env : Env) (subject : String) (modifiers : SearchModifiers)
    (p : Nat × String) : Option PlaylistEntry :=
  searchForTopic env p.2 subject modifiers p.1

/-- The `gapsFailed` contribution of one indexed topic in
`buildFromScratch`. -/
def scratchFailFn (env : Env) (subject : String) (modifiers : SearchModifiers)
    (p : Nat × String) : Option String :=
  match searchForTopic env p.2 subject modifiers p.1 with
  | some _ => none
  | none => some p.2

/-- What the merge walk of `resequence` emits for one topic mapping. -/
def mergeEmit (anchor : AnchorPlaylist) (gapEntries : List (Nat × PlaylistEntry))
    (m : TopicMapping) : Option PlaylistEntry :=
  match m.isGap, m.anchorVideo with
  | false, some av => some (anchorEntryFor anchor m av)
  | _, _ => gapEntries.lookup m.position

/-- Maximum of a list of naturals (0 for the empty list). -/
def natListMax : List Nat → Nat
  | [] => 0
  | x :: xs => max x (natListMax xs)

/-- A `PlaylistEntry` with its `source` tag erased (normalised to a
fixed value), for comparing entries up to the source field. -/
def forgetSource (e : PlaylistEntry) : PlaylistEntry :=
  { e with source := VideoSource.gap_fill }

/-! ## Concrete fixtures for witnesses and counterexamples -/

/-- Search modifiers of the `from_scratch` learning mode. -/
def modsFS : SearchModifiers :=
  { languageSuffix := "", experienceLevel := "intermediate",
    duration := durationConfigFromScratch,
    modeLabel := "From Scratch (First Principles)",
    modeKeywords := "explained fundamentals concepts from basics" }

/-- A plain raw search hit with the given id and a 700-second runtime. -/
def mkRawHit (id : String) : RawVideo :=
  { videoId := id, title := "t", description := some "",
    durationSeconds := some 700, durationTimestamp := some "11:40",
    views := some 0, authorName := some "chan", authorUrl := none }

/-- A raw search hit with the given id and duration. -/
def mkRawDur (id : String) (secs : Nat) : RawVideo :=
  { videoId := id, title := "t", description := some "",
    durationSeconds := some secs, durationTimestamp := some "x",
    views := some 0, authorName := some "chan", authorUrl := none }

/-- Environment where only the topic "bb" resolves (to `mkRawHit`'s
video), every other query is empty, no anchor topic matches, and no
Gemini key is configured. -/
def envC : Env :=
  { ytSearchQ := fun q =>
      if q = "bb explained overview" then
        Except.ok { videos := [mkRawHit "bvid5678901"], playlists := [] }
      else Except.ok { videos := [], playlists := [] },
    fetchPlaylist := fun _ => Except.ok none,
    fuseAnchor := fun _ _ => none,
    fuseTitles := fun _ _ => false,
    hasGeminiKey := false,
    gemini := fun _ => Except.ok none }

/-- An anchor playlist with no videos. -/
def anchorE : AnchorPlaylist :=
  { playlistId := "x", playlistTitle := "t", channelName := "c",
    videoCount := 0, videos := [], coverageScore := 0,
    matchedTopics := [], unmatchedTopics := [] }

/-- A six-candidate raw pool, all scoring equally, with distinct
11-character video ids. -/
def rawPool6 : List RawVideo :=
  [mkRawHit "idA67890123", mkRawHit "idB67890123", mkRawHit "idC67890123",
   mkRawHit "idD67890123", mkRawHit "idE67890123", mkRawHit "idF67890123"]

/-- Environment whose reranker always answers with the id of the sixth
candidate of `rawPool6` — an id that is ranked but outside the submitted
top five. -/
def envR : Env :=
  { ytSearchQ := fun _ => Except.ok { videos := [], playlists := [] },
    fetchPlaylist := fun _ => Except.ok none,
    fuseAnchor := fun _ _ => none,
    fuseTitles := fun _ _ => false,
    hasGeminiKey := true,
    gemini := fun _ => Except.ok (some "idF67890123") }

/-- The enriched candidate (as ranked) for a `mkRawHit` id: scored 15
(medium-duration boost only). -/
def enrichedHit (id : String) : VideoCandidate :=
  { videoId := id, title := "t", description := "",
    duration := { seconds := 700, timestamp := "11:40" },
    views := 0, author := { name := "chan", url := none },
    densityScore := some 15,
    densityFlags := some ["⏱️ Detailed (10-15 min)"] }

/-- A three-video playlist fetch result for the anchor-hunt witness. -/
def huntVideos : List RawVideo :=
  [mkRawHit "hv167890123", mkRawHit "hv267890123", mkRawHit "hv367890123"]

/-- Environment for the anchor-hunt witness: the playlist search finds
one playlist, fetching it yields three videos, and the matcher matches
every topic. -/
def envH : Env :=
  { ytSearchQ := fun q =>
      if q = "s full course playlist" then
        Except.ok { videos := []
                    playlists := [{ listId := "pl1", title := "PL",
                                    authorName := some "au" }] }
      else Except.ok { videos := [], playlists := [] },
    fetchPlaylist := fun id =>
      if id = "pl1" then Except.ok (some huntVideos) else Except.ok none,
    fuseAnchor := fun _ _ => none,
    fuseTitles := fun _ _ => true,
    hasGeminiKey := false,
    gemini := fun _ => Except.ok none }

/-- A matcher oracle for the coverage witness: a topic matches iff it
occurs verbatim among the titles. -/
def fmW : List String → String → Bool := fun titles t => titles.contains t

/-- A one-video playlist for the coverage witness. -/
def videosW : List PlaylistVideoItem :=
  [{ videoId := "w1", title := "x", durationSeconds := some 700,
     durationTimestamp := some "11:40" }]

/-- The search outcome `envH` returns for the playlist query. -/
def resH : SearchOutcome :=
  { videos := [],
    playlists := [{ listId := "pl1", title := "PL", authorName := some "au" }] }

/-- A clickbait-flagged candidate that still scores positively: the
description carries every positive signal category and the video is
long, so 190 in boosts against the −100 clickbait penalty. -/
def cbPositive : VideoCandidate :=
  { videoId := "v1", title := "a",
    description := "github.com jupyter documentation paper source code insane",
    duration := { seconds := 1000, timestamp := "16:40" },
    views := 0, author := { name := "c", url := none },
    densityScore := none, densityFlags := none }

/-- A clickbait-flagged candidate with no positive signal: scores −100. -/
def cbNegative : VideoCandidate :=
  { videoId := "v2", title := "insane", description := "",
    duration := { seconds := 30, timestamp := "0:30" },
    views := 0, author := { name := "c", url := none },
    densityScore := none, densityFlags := none }

/-- A 40-topic table of contents of which exactly 23 match under `fm40`:
the ratio 23/40 is a boundary input for the coverage rounding. -/
def toc40 : List String := List.replicate 23 "m" ++ List.replicate 17 "u"

/-- A matcher oracle matching exactly the topic `m`. -/
def fm40 : List String → String → Bool := fun _ t => t == "m"

/-! ## Verification layer -/


/-! Generic helper lemmas -/

theorem length_filterMap_eq_countP {α β : Type} (f : α → Option β) (l : List α) :
    (l.filterMap f).length = l.countP (fun a => (f a).isSome) := by
  induction l with
  | nil => rfl
  | cons a l ih =>
    cases h : f a <;>
      simp [List.filterMap_cons, h, List.countP_cons, ih]

theorem lookup_eq_none_of_forall {β : Type} {l : List (Nat × β)} {k : Nat}
    (h : ∀ p ∈ l, p.1 ≠ k) : l.lookup k = none := by
  induction l with
  | nil => rfl
  | cons p l ih =>
    have hk : (k == p.1) = false :=
      beq_eq_false_iff_ne.mpr (fun e => h p (List.mem_cons_self p l) e.symm)
    cases p with
    | mk p1 p2 =>
      simp only [List.lookup_cons, hk]
      exact ih (fun q hq => h q (List.mem_cons_of_mem _ hq))

theorem countP_or_split {α : Type} (p q : α → Bool) (l : List α) :
    l.countP (fun a => !p a || q a)
      = l.countP (fun a => !p a) + l.countP (fun a => p a && q a) := by
  induction l with
  | nil => rfl
  | cons a l ih =>
    cases hp : p a <;> cases hq : q a <;>
      simp [List.countP_cons, hp, hq, ih] <;> omega

theorem natListMax_le_mem {l : List Nat} {x : Nat} (h : x ∈ l) :
    x ≤ natListMax l := by
  induction l with
  | nil => cases h
  | cons a l ih =>
    rcases List.mem_cons.mp h with rfl | h
    · exact Nat.le_max_left _ _
    · exact Nat.le_trans (ih h) (Nat.le_max_right _ _)

theorem natListMax_zero_or_mem (l : List Nat) :
    natListMax l = 0 ∨ natListMax l ∈ l := by
  induction l with
  | nil => exact Or.inl rfl
  | cons a l ih =>
    rcases Nat.le_total a (natListMax l) with h | h
    · rcases ih with h0 | hm
      · left
        simp only [natListMax, Nat.max_eq_right h, h0]
        omega
      · right
        simp [natListMax, Nat.max_eq_right h]
        exact Or.inr hm
    · right
      simp [natListMax, Nat.max_eq_left h]

/-! Loop characterizations -/

theorem gapLoop_go (env : Env) (s : String) (m : SearchModifiers) :
    ∀ (gaps : List TopicMapping) (a : List String)
      (b : List (Nat × PlaylistEntry)),
      List.foldl (gapStep env s m) (a, b) gaps
        = (a ++ gaps.filterMap (gapFailFn env s m),
           b ++ gaps.filterMap (gapEntryFn env s m)) := by
  intro gaps
  induction gaps with
  | nil => intro a b; simp
  | cons g gs ih =>
    intro a b
    cases h : searchForTopic env g.topic s m g.position with
    | some e =>
      simp only [List.foldl_cons, gapStep, h, List.filterMap_cons,
        gapFailFn, gapEntryFn, ih]
      simp [h]
    | none =>
      simp only [List.foldl_cons, gapStep, h, List.filterMap_cons,
        gapFailFn, gapEntryFn, ih]
      simp [h]

theorem gapLoop_eq (env : Env) (s : String) (m : SearchModifiers)
    (gaps : List TopicMapping) :
    gapLoop env s m gaps
      = (gaps.filterMap (gapFailFn env s m),
         gaps.filterMap (gapEntryFn env s m)) := by
  simpa using gapLoop_go env s m gaps [] []

theorem scratchLoop_go (env : Env) (s : String) (m : SearchModifiers) :
    ∀ (ps : List (Nat × String)) (a : List PlaylistEntry) (b : List String),
      List.foldl (scratchStep env s m) (a, b) ps
        = (a ++ ps.filterMap (scratchEntryFn env s m),
           b ++ ps.filterMap (scratchFailFn env s m)) := by
  intro ps
  induction ps with
  | nil => intro a b; simp
  | cons p ps ih =>
    intro a b
    cases h : searchForTopic env p.2 s m p.1 with
    | some e =>
      simp only [List.foldl_cons, scratchStep, h, List.filterMap_cons,
        scratchEntryFn, scratchFailFn, ih]
      simp [h]
    | none =>
      simp only [List.foldl_cons, scratchStep, h, List.filterMap_cons,
        scratchEntryFn, scratchFailFn, ih]
      simp [h]

theorem buildFromScratch_entries (env : Env) (toc : List String)
    (s : String) (m : SearchModifiers) :
    (buildFromScratch env toc s m).entries
      = toc.enum.filterMap (scratchEntryFn env s m) := by
  show (toc.enum.foldl (scratchStep env s m) ([], [])).1 = _
  rw [scratchLoop_go]
  simp

theorem buildFromScratch_failed (env : Env) (toc : List String)
    (s : String) (m : SearchModifiers) :
    (buildFromScratch env toc s m).gapsFailed
      = toc.enum.filterMap (scratchFailFn env s m) := by
  show (toc.enum.foldl (scratchStep env s m) ([], [])).2 = _
  rw [scratchLoop_go]
  simp

/-! Shape of resolver results -/

theorem pickBestVideo_fields {env : Env} {raw : List RawVideo} {topic : String}
    {mods : SearchModifiers} {pos : Nat} {e : PlaylistEntry}
    (h : pickBestVideo env raw topic mods pos = some e) :
    e.position = pos ∧ e.source = VideoSource.gap_fill ∧
      e.topicMatched = topic := by
  unfold pickBestVideo at h
  dsimp only at h
  split at h
  · exact absurd h (by simp)
  · split at h
    · exact absurd h (by simp)
    · rw [Option.some.injEq] at h
      subst h
      exact ⟨rfl, rfl, rfl⟩

theorem searchForTopic_fields {env : Env} {topic subject : String}
    {mods : SearchModifiers} {pos : Nat} {e : PlaylistEntry}
    (h : searchForTopic env topic subject mods pos = some e) :
    e.position = pos ∧ e.source = VideoSource.gap_fill ∧
      e.topicMatched = topic := by
  unfold searchForTopic searchForTopicT at h
  dsimp only at h
  split at h
  · exact absurd h (by simp)
  · split at h
    · split at h
      · exact absurd h (by simp)
      · split at h
        · exact absurd h (by simp)
        · exact pickBestVideo_fields h
    · exact pickBestVideo_fields h

/-! Merge and mapping structure -/

theorem mergeStep_eq (anchor : AnchorPlaylist)
    (ge : List (Nat × PlaylistEntry)) (ms : List TopicMapping) :
    mergeStep anchor ge ms = ms.filterMap (mergeEmit anchor ge) := by
  induction ms with
  | nil => rfl
  | cons m ms ih =>
    unfold mergeStep mergeEmit
    cases hg : m.isGap <;> cases ha : m.anchorVideo <;>
      simp only [List.filterMap_cons] <;>
      (cases hl : ge.lookup m.position <;>
        simp [mergeEmit, hg, ha, hl, ih]) <;>
      (try rfl)

theorem mapTopics_map_position
    (fuse : List AnchorVideo → String → Option AnchorVideo)
    (toc : List String) (videos : List AnchorVideo) :
    (mapTopicsToAnchor fuse toc videos).map (fun m => m.position)
      = List.range toc.length := by
  unfold mapTopicsToAnchor
  rw [List.map_map, ← List.enum_map_fst]
  apply List.map_congr_left
  intro p _
  cases hf : fuse videos p.2 <;> simp [Function.comp, hf]

theorem mapTopics_anchorVideo
    (fuse : List AnchorVideo → String → Option AnchorVideo)
    (toc : List String) (videos : List AnchorVideo) :
    ∀ m ∈ mapTopicsToAnchor fuse toc videos,
      m.anchorVideo.isSome = !m.isGap := by
  intro m hm
  unfold mapTopicsToAnchor at hm
  rw [List.mem_map] at hm
  obtain ⟨p, _, rfl⟩ := hm
  cases fuse videos p.2 <;> rfl

theorem mapTopics_all_gap
    {fuse : List AnchorVideo → String → Option AnchorVideo}
    {toc : List String} {videos : List AnchorVideo}
    (h : ∀ t ∈ toc, fuse videos t = none) :
    mapTopicsToAnchor fuse toc videos
      = toc.enum.map (fun p =>
          { topic := p.2, position := p.1, anchorVideo := none,
            isGap := true }) := by
  unfold mapTopicsToAnchor
  apply List.map_congr_left
  intro p hp
  have hmem : p.2 ∈ toc := by
    rw [List.mem_enum_iff_getElem?] at hp
    exact List.getElem?_mem hp
  rw [h p.2 hmem]

/-! Gap-entry lookup -/

theorem keys_gapEntries_sub (env : Env) (s : String) (m : SearchModifiers)
    (gs : List TopicMapping) :
    ∀ q ∈ gs.filterMap (gapEntryFn env s m),
      q.1 ∈ gs.map (fun g => g.position) := by
  intro q hq
  rw [List.mem_filterMap] at hq
  obtain ⟨g, hg, he⟩ := hq
  unfold gapEntryFn at he
  cases hs : searchForTopic env g.topic s m g.position with
  | none => rw [hs] at he; exact absurd he (by simp)
  | some e =>
    rw [hs] at he
    simp only [Option.map_some'] at he
    rw [Option.some.injEq] at he
    subst he
    exact List.mem_map_of_mem _ hg

theorem lookup_gapEntries (env : Env) (s : String) (mods : SearchModifiers) :
    ∀ (gs : List TopicMapping),
      (gs.map (fun g => g.position)).Nodup →
      ∀ m ∈ gs,
        (gs.filterMap (gapEntryFn env s mods)).lookup m.position
          = searchForTopic env m.topic s mods m.position := by
  intro gs
  induction gs with
  | nil => intro _ m hm; cases hm
  | cons g gs ih =>
    intro hnd m hm
    rw [List.map_cons, List.nodup_cons] at hnd
    rcases List.mem_cons.mp hm with rfl | hmem
    · cases hs : searchForTopic env m.topic s mods m.position with
      | some e =>
        simp only [List.filterMap_cons, gapEntryFn, hs, Option.map_some']
        simp [List.lookup_cons]
      | none =>
        simp only [List.filterMap_cons, gapEntryFn, hs, Option.map_none']
        apply lookup_eq_none_of_forall
        intro q hq hqk
        exact hnd.1 (hqk ▸ keys_gapEntries_sub env s mods gs q hq)
    · have hne : m.position ≠ g.position := by
        intro he
        exact hnd.1 (he ▸ List.mem_map_of_mem _ hmem)
      have hbeq : (m.position == g.position) = false :=
        beq_eq_false_iff_ne.mpr hne
      cases hs : searchForTopic env g.topic s mods g.position with
      | some e =>
        simp only [List.filterMap_cons, gapEntryFn, hs, Option.map_some']
        rw [List.lookup_cons]
        simp only [hbeq]
        exact ih hnd.2 m hmem
      | none =>
        simp only [List.filterMap_cons, gapEntryFn, hs, Option.map_none']
        exact ih hnd.2 m hmem

/-! Accounting -/

theorem fillGaps_unfolded (env : Env) (anchor : AnchorPlaylist)
    (toc : List String) (s : String) (m : SearchModifiers) :
    fillGaps env anchor toc s m =
      { entries := resequence (mapTopicsToAnchor env.fuseAnchor toc anchor.videos)
          anchor
          (((mapTopicsToAnchor env.fuseAnchor toc anchor.videos).filter
              (fun mm => mm.isGap)).filterMap (gapEntryFn env s m)),
        gapsFound := ((mapTopicsToAnchor env.fuseAnchor toc anchor.videos).filter
          (fun mm => mm.isGap)).length,
        gapsFilled := (((mapTopicsToAnchor env.fuseAnchor toc anchor.videos).filter
          (fun mm => mm.isGap)).filterMap (gapEntryFn env s m)).length,
        gapsFailed := ((mapTopicsToAnchor env.fuseAnchor toc anchor.videos).filter
          (fun mm => mm.isGap)).filterMap (gapFailFn env s m) } := by
  unfold fillGaps
  dsimp only
  rw [gapLoop_eq]

theorem mapTopics_length (fuse : List AnchorVideo → String → Option AnchorVideo)
    (toc : List String) (videos : List AnchorVideo) :
    (mapTopicsToAnchor fuse toc videos).length = toc.length := by
  unfold mapTopicsToAnchor
  rw [List.length_map, List.enum_length]

theorem fillGaps_accounting (env : Env) (anchor : AnchorPlaylist)
    (toc : List String) (s : String) (m : SearchModifiers) :
    (fillGaps env anchor toc s m).gapsFilled
        + (fillGaps env anchor toc s m).gapsFailed.length
      = (fillGaps env anchor toc s m).gapsFound
    ∧ (fillGaps env anchor toc s m).entries.length
        + (fillGaps env anchor toc s m).gapsFailed.length
      = toc.length := by
  rw [fillGaps_unfolded]
  -- abbreviations
  set mappings := mapTopicsToAnchor env.fuseAnchor toc anchor.videos with hmapdef
  set gaps := mappings.filter (fun mm => mm.isGap) with hgapsdef
  set ok : TopicMapping → Bool :=
    (fun g => (searchForTopic env g.topic s m g.position).isSome) with hokdef
  -- counts of the gap loop
  have h1 : (gaps.filterMap (gapEntryFn env s m)).length = gaps.countP ok := by
    rw [length_filterMap_eq_countP]
    apply List.countP_congr
    intro g _
    simp [gapEntryFn, hokdef]
  have h2 : (gaps.filterMap (gapFailFn env s m)).length
      = gaps.countP (fun g => !ok g) := by
    rw [length_filterMap_eq_countP]
    apply List.countP_congr
    intro g _
    cases hs : searchForTopic env g.topic s m g.position <;>
      simp [gapFailFn, hs, hokdef]
  have h3 : gaps.length = gaps.countP ok + gaps.countP (fun g => !ok g) := by
    rw [List.length_eq_countP_add_countP ok]
    congr 1
    apply List.countP_congr
    intro g _
    simp
  -- nodup positions
  have hnodup : (mappings.map (fun mm => mm.position)).Nodup := by
    rw [hmapdef, mapTopics_map_position]
    exact List.nodup_range toc.length
  have hnodgaps : (gaps.map (fun mm => mm.position)).Nodup :=
    ((List.filter_sublist mappings).map _).nodup hnodup
  -- entries length
  have e1 : (resequence mappings anchor (gaps.filterMap (gapEntryFn env s m))).length
      = (mergeStep anchor (gaps.filterMap (gapEntryFn env s m)) mappings).length := by
    unfold resequence renumber sortByPosition
    rw [List.length_map, List.enum_length, List.length_insertionSort]
  have e2 : (mergeStep anchor (gaps.filterMap (gapEntryFn env s m)) mappings).length
      = mappings.countP (fun mm => !mm.isGap || ok mm) := by
    rw [mergeStep_eq, length_filterMap_eq_countP]
    apply List.countP_congr
    intro mm hmm
    have hav := mapTopics_anchorVideo env.fuseAnchor toc anchor.videos mm
      (by rw [← hmapdef] at *; exact hmm)
    cases hg : mm.isGap with
    | false =>
      rw [hg] at hav
      simp only [Bool.not_false] at hav
      obtain ⟨av, hsome⟩ := Option.isSome_iff_exists.mp hav
      simp [mergeEmit, hg, hsome]
    | true =>
      rw [hg] at hav
      simp only [Bool.not_true] at hav
      have hnone : mm.anchorVideo = none := Option.not_isSome_iff_eq_none.mp
        (by simp [hav])
      have hmemg : mm ∈ gaps := by
        rw [hgapsdef, List.mem_filter]
        exact ⟨hmm, hg⟩
      have hlk := lookup_gapEntries env s m gaps hnodgaps mm hmemg
      simp [mergeEmit, hg, hnone, hlk, hokdef]
  have e4 : mappings.countP (fun mm => !mm.isGap || ok mm)
      = mappings.countP (fun mm => !mm.isGap)
        + mappings.countP (fun mm => mm.isGap && ok mm) :=
    countP_or_split _ _ _
  have e5 : mappings.countP (fun mm => mm.isGap && ok mm) = gaps.countP ok := by
    rw [hgapsdef, List.countP_filter]
    apply List.countP_congr
    intro mm _
    cases hg : mm.isGap <;> cases hko : ok mm <;> simp [hg, hko]
  have e6 : mappings.length
      = mappings.countP (fun mm => mm.isGap)
        + mappings.countP (fun mm => !mm.isGap) := by
    rw [List.length_eq_countP_add_countP (fun mm => mm.isGap)]
    congr 1
    apply List.countP_congr
    intro g _
    simp
  have e7 : mappings.length = toc.length := by
    rw [hmapdef, mapTopics_length]
  have e8 : gaps.length = mappings.countP (fun mm => mm.isGap) := by
    rw [hgapsdef, ← List.countP_eq_length_filter]
  constructor
  · simp only []
    omega
  · simp only []
    rw [e1, e2, e4, e5]
    omega

theorem scratch_accounting (env : Env) (toc : List String) (s : String)
    (m : SearchModifiers) :
    (buildFromScratch env toc s m).gapsFilled
        + (buildFromScratch env toc s m).gapsFailed.length
      = (buildFromScratch env toc s m).gapsFound
    ∧ (buildFromScratch env toc s m).entries.length
        + (buildFromScratch env toc s m).gapsFailed.length
      = toc.length := by
  have hent := buildFromScratch_entries env toc s m
  have hfail := buildFromScratch_failed env toc s m
  have hfound : (buildFromScratch env toc s m).gapsFound = toc.length := rfl
  have hfilled : (buildFromScratch env toc s m).gapsFilled
      = (buildFromScratch env toc s m).entries.length := rfl
  set ok : Nat × String → Bool :=
    (fun p => (searchForTopic env p.2 s m p.1).isSome) with hokdef
  have h1 : (toc.enum.filterMap (scratchEntryFn env s m)).length
      = toc.enum.countP ok := by
    rw [length_filterMap_eq_countP]
    apply List.countP_congr
    intro p _
    simp [scratchEntryFn, hokdef]
  have h2 : (toc.enum.filterMap (scratchFailFn env s m)).length
      = toc.enum.countP (fun p => !ok p) := by
    rw [length_filterMap_eq_countP]
    apply List.countP_congr
    intro p _
    cases hs : searchForTopic env p.2 s m p.1 <;>
      simp [scratchFailFn, hs, hokdef]
  have h3 : toc.enum.length = toc.enum.countP ok
      + toc.enum.countP (fun p => !ok p) := by
    rw [List.length_eq_countP_add_countP ok]
    congr 1
    apply List.countP_congr
    intro p _
    simp
  have h4 : toc.enum.length = toc.length := List.enum_length
  constructor
  · rw [hfilled, hfound, hent, hfail, h1, h2]
    omega
  · rw [hent, hfail, h1, h2]
    omega

/-! Positions -/

theorem renumber_map_position (l : List PlaylistEntry) :
    (renumber l).map (fun e => e.position) = List.range l.length := by
  unfold renumber
  rw [List.map_map, ← List.enum_map_fst]
  apply List.map_congr_left
  intro p _
  rfl

theorem renumber_length (l : List PlaylistEntry) :
    (renumber l).length = l.length := by
  unfold renumber
  rw [List.length_map, List.enum_length]

theorem fillGaps_positions (env : Env) (anchor : AnchorPlaylist)
    (toc : List String) (s : String) (m : SearchModifiers) :
    (fillGaps env anchor toc s m).entries.map (fun e => e.position)
      = List.range (fillGaps env anchor toc s m).entries.length := by
  rw [fillGaps_unfolded]
  unfold resequence
  rw [renumber_map_position, renumber_length]

theorem filterMap_scratch_positions (env : Env) (s : String)
    (m : SearchModifiers) :
    ∀ l : List (Nat × String),
      (l.filterMap (scratchEntryFn env s m)).map (fun e => e.position)
        = (l.filter (fun p => (scratchEntryFn env s m p).isSome)).map Prod.fst := by
  intro l
  induction l with
  | nil => rfl
  | cons p l ih =>
    cases hs : searchForTopic env p.2 s m p.1 with
    | some e =>
      have hpos := (searchForTopic_fields hs).1
      simp [List.filterMap_cons, List.filter_cons, scratchEntryFn, hs, ih, hpos]
    | none =>
      simp [List.filterMap_cons, List.filter_cons, scratchEntryFn, hs, ih]

theorem scratch_positions (env : Env) (toc : List String) (s : String)
    (m : SearchModifiers) :
    (buildFromScratch env toc s m).entries.map (fun e => e.position)
      = (toc.enum.filter (fun p => (searchForTopic env p.2 s m p.1).isSome)).map
          Prod.fst := by
  rw [buildFromScratch_entries, filterMap_scratch_positions]
  rfl

/-! C3 chain: zero-coverage fillGaps vs buildFromScratch -/

theorem mergeStep_all_gap (env : Env) (anchor : AnchorPlaylist)
    (toc : List String) (s : String) (m : SearchModifiers)
    (hfuse : ∀ t ∈ toc, env.fuseAnchor anchor.videos t = none) :
    mergeStep anchor
        (((mapTopicsToAnchor env.fuseAnchor toc anchor.videos).filter
            (fun mm => mm.isGap)).filterMap (gapEntryFn env s m))
        (mapTopicsToAnchor env.fuseAnchor toc anchor.videos)
      = toc.enum.filterMap (scratchEntryFn env s m) := by
  have hmap := mapTopics_all_gap hfuse
  have hnodup : ((mapTopicsToAnchor env.fuseAnchor toc anchor.videos).map
      (fun mm => mm.position)).Nodup := by
    rw [mapTopics_map_position]
    exact List.nodup_range toc.length
  have hgaps : (mapTopicsToAnchor env.fuseAnchor toc anchor.videos).filter
      (fun mm => mm.isGap) = mapTopicsToAnchor env.fuseAnchor toc anchor.videos := by
    apply List.filter_eq_self.mpr
    intro mm hmm
    rw [hmap] at hmm
    rw [List.mem_map] at hmm
    obtain ⟨p, _, rfl⟩ := hmm
    rfl
  rw [mergeStep_eq, hgaps]
  have hemit : ∀ mm ∈ mapTopicsToAnchor env.fuseAnchor toc anchor.videos,
      mergeEmit anchor
          ((mapTopicsToAnchor env.fuseAnchor toc anchor.videos).filterMap
            (gapEntryFn env s m)) mm
        = searchForTopic env mm.topic s m mm.position := by
    intro mm hmm
    have hg : mm.isGap = true := by
      rw [hmap] at hmm
      rw [List.mem_map] at hmm
      obtain ⟨p, _, rfl⟩ := hmm
      rfl
    have hlk := lookup_gapEntries env s m
      (mapTopicsToAnchor env.fuseAnchor toc anchor.videos) hnodup mm hmm
    simp [mergeEmit, hg, hlk]
  rw [List.filterMap_congr hemit, hmap, List.filterMap_map]
  apply List.filterMap_congr
  intro p _
  rfl

theorem filterMap_scratch_pairwise (env : Env) (s : String)
    (m : SearchModifiers) (toc : List String) :
    List.Pairwise positionRel
      (toc.enum.filterMap (scratchEntryFn env s m)) := by
  have henum : List.Pairwise (fun p q : Nat × String => p.1 < q.1) toc.enum := by
    have := List.pairwise_lt_range toc.length
    rw [← List.enum_map_fst, List.pairwise_map] at this
    exact this
  have := List.Pairwise.filterMap (scratchEntryFn env s m)
    (fun p q hpq e he e' he' => by
      have h1 := (searchForTopic_fields (Option.mem_def.mp he)).1
      have h2 := (searchForTopic_fields (Option.mem_def.mp he')).1
      show positionRel e e'
      unfold positionRel
      rw [h1, h2]
      exact Nat.le_of_lt hpq) henum
  exact this

theorem buildFromScratch_filled (env : Env) (toc : List String)
    (s : String) (m : SearchModifiers) :
    (buildFromScratch env toc s m).gapsFilled
      = (toc.enum.filterMap (scratchEntryFn env s m)).length := by
  rw [show (buildFromScratch env toc s m).gapsFilled
      = (buildFromScratch env toc s m).entries.length from rfl,
    buildFromScratch_entries]

/-- C3 (corrected): when the anchor matches none of the topics (every
topic is a gap), `fillGaps` produces the same resolved videos in the
same order with the same `gapsFailed`, `gapsFound` and `gapsFilled` as
`buildFromScratch` — but the entries agree only up to the `position`
field: `fillGaps` renumbers positions contiguously (its entries are
exactly `renumber` of `buildFromScratch`'s), while `buildFromScratch`
keeps original topic indices; the `source` tag is `gap_fill` on both
sides (see `C3_counterexample`). -/
theorem C3_zero_coverage_equivalence (env : Env) (anchor : AnchorPlaylist) (toc : List String)
    (s : String) (m : SearchModifiers)
    (hfuse : ∀ t ∈ toc, env.fuseAnchor anchor.videos t = none) :
    (fillGaps env anchor toc s m).entries
        = renumber ((buildFromScratch env toc s m).entries)
      ∧ (fillGaps env anchor toc s m).gapsFailed
        = (buildFromScratch env toc s m).gapsFailed
      ∧ (fillGaps env anchor toc s m).gapsFound
        = (buildFromScratch env toc s m).gapsFound
      ∧ (fillGaps env anchor toc s m).gapsFilled
        = (buildFromScratch env toc s m).gapsFilled := by
  have hmap := mapTopics_all_gap hfuse
  have hgaps : (mapTopicsToAnchor env.fuseAnchor toc anchor.videos).filter
      (fun mm => mm.isGap) = mapTopicsToAnchor env.fuseAnchor toc anchor.videos := by
    apply List.filter_eq_self.mpr
    intro mm hmm
    rw [hmap] at hmm
    rw [List.mem_map] at hmm
    obtain ⟨p, _, rfl⟩ := hmm
    rfl
  refine ⟨?_, ?_, ?_, ?_⟩
  · rw [fillGaps_unfolded, buildFromScratch_entries]
    show resequence _ anchor _ = _
    unfold resequence
    rw [mergeStep_all_gap env anchor toc s m hfuse]
    unfold sortByPosition
    rw [List.Sorted.insertionSort_eq (filterMap_scratch_pairwise env s m toc)]
  · rw [fillGaps_unfolded, buildFromScratch_failed]
    show ((mapTopicsToAnchor env.fuseAnchor toc anchor.videos).filter
        (fun mm => mm.isGap)).filterMap (gapFailFn env s m) = _
    rw [hgaps, hmap, List.filterMap_map]
    apply List.filterMap_congr
    intro p _
    rfl
  · rw [fillGaps_unfolded]
    show ((mapTopicsToAnchor env.fuseAnchor toc anchor.videos).filter
        (fun mm => mm.isGap)).length = toc.length
    rw [hgaps, mapTopics_length]
  · rw [fillGaps_unfolded, buildFromScratch_filled]
    show (((mapTopicsToAnchor env.fuseAnchor toc anchor.videos).filter
        (fun mm => mm.isGap)).filterMap (gapEntryFn env s m)).length = _
    rw [hgaps]
    rw [length_filterMap_eq_countP, length_filterMap_eq_countP]
    rw [hmap, List.countP_map]
    apply List.countP_congr
    intro p _
    simp [gapEntryFn, scratchEntryFn, Function.comp]

/-! C9: rank idempotence -/

theorem calculateDensityScore_enrich (v : VideoCandidate) :
    calculateDensityScore (enrichDensity v) = calculateDensityScore v := rfl

theorem enrichDensity_idem (v : VideoCandidate) :
    enrichDensity (enrichDensity v) = enrichDensity v := by
  cases v
  rfl

/-- C9 (confirmed): `rankByDensity` is idempotent — re-ranking an
already-ranked list yields the same list, because rescoring reads only
fields that ranking leaves unchanged and the stable sort of a sorted
list is the identity. -/
theorem C9_rank_idempotent (l : List VideoCandidate) :
    rankByDensity (rankByDensity l) = rankByDensity l := by
  unfold rankByDensity
  have hself : (List.insertionSort rankRel (l.map enrichDensity)).map enrichDensity
      = List.insertionSort rankRel (l.map enrichDensity) := by
    conv_rhs => rw [← List.map_id (List.insertionSort rankRel (l.map enrichDensity))]
    apply List.map_congr_left
    intro x hx
    rw [List.mem_insertionSort, List.mem_map] at hx
    obtain ⟨y, _, rfl⟩ := hx
    exact enrichDensity_idem y
  rw [hself]
  exact List.Sorted.insertionSort_eq
    (List.sorted_insertionSort rankRel (l.map enrichDensity))

/-! C8: density score decomposition -/

theorem iteAddTerm (c : Prop) [Decidable c] (s w : Int) :
    (if c then s + w else s) = s + (if c then w else 0) := by
  split_ifs <;> ring

theorem iteSubTerm (c : Prop) [Decidable c] (s w : Int) :
    (if c then s - w else s) = s + (if c then -w else 0) := by
  split_ifs <;> ring

theorem iteAddElse (c : Prop) [Decidable c] (s x t : Int) :
    (if c then s + x else s + t) = s + (if c then x else t) := by
  split_ifs <;> ring

theorem densityScore_decomposition (v : VideoCandidate) :
    (calculateDensityScore v).1
      = positiveDensityPart v + clickbaitPart v + highViewPart v + capsPart v := by
  unfold calculateDensityScore
  dsimp only
  simp only [iteAddTerm, iteSubTerm, iteAddElse]
  unfold positiveDensityPart clickbaitPart highViewPart capsPart
  unfold GITHUB_BOOST DOCUMENTATION_BOOST ACADEMIC_BOOST LONG_VIDEO_BOOST
    MEDIUM_VIDEO_BOOST EMPTY_DESC_PENALTY CLICKBAIT_PENALTY
  ring

/-! C4: binary64 rounding -/

theorem rne_floor_le (t : ℚ) : ⌊t⌋ ≤ rne t := by
  unfold rne
  split_ifs <;> omega

theorem rne_le_floor_add_one (t : ℚ) : rne t ≤ ⌊t⌋ + 1 := by
  unfold rne
  split_ifs <;> omega

theorem rne_intCast (z : ℤ) : rne (z : ℚ) = z := by
  unfold rne
  rw [if_pos (by rw [Int.fract_intCast]; norm_num)]
  exact Int.floor_intCast z

theorem fract_eq (t : ℚ) : Int.fract t = t - ⌊t⌋ := rfl

theorem rne_mono {t u : ℚ} (h : t ≤ u) : rne t ≤ rne u := by
  rcases lt_or_le ⌊t⌋ ⌊u⌋ with hf | hf
  · have h1 := rne_le_floor_add_one t
    have h2 := rne_floor_le u
    omega
  · have hfe : ⌊t⌋ = ⌊u⌋ := le_antisymm (Int.floor_le_floor h) hf
    have hfr : Int.fract t ≤ Int.fract u := by
      rw [fract_eq, fract_eq, hfe]
      exact sub_le_sub_right h _
    unfold rne
    rw [hfe]
    split_ifs <;> first | omega | linarith

theorem fl_scale_lower {q : ℚ} (h : 0 < q) :
    (2:ℚ) ^ (52:ℤ) ≤ q * 2 ^ (52 - Int.log 2 q) := by
  have h1 : (2:ℚ) ^ (Int.log 2 q) ≤ q := Int.zpow_log_le_self (by norm_num) h
  calc (2:ℚ) ^ (52:ℤ) = 2 ^ (Int.log 2 q) * 2 ^ (52 - Int.log 2 q) := by
        rw [← zpow_add₀ (by norm_num : (2:ℚ) ≠ 0)]
        congr 1
        ring
    _ ≤ q * 2 ^ (52 - Int.log 2 q) :=
        mul_le_mul_of_nonneg_right h1 (by positivity)

theorem fl_scale_upper (q : ℚ) :
    q * 2 ^ (52 - Int.log 2 q) < (2:ℚ) ^ (53:ℤ) := by
  have h2 : q < (2:ℚ) ^ (Int.log 2 q + 1) := Int.lt_zpow_succ_log_self (by norm_num) q
  calc q * 2 ^ (52 - Int.log 2 q)
      < 2 ^ (Int.log 2 q + 1) * 2 ^ (52 - Int.log 2 q) :=
        mul_lt_mul_of_pos_right h2 (by positivity)
    _ = (2:ℚ) ^ (53:ℤ) := by
        rw [← zpow_add₀ (by norm_num : (2:ℚ) ≠ 0)]
        congr 1
        ring

theorem rne_scaled_lower {q : ℚ} (h : 0 < q) :
    (2:ℤ) ^ 52 ≤ rne (q * 2 ^ (52 - Int.log 2 q)) := by
  have hfl : (2:ℤ) ^ 52 ≤ ⌊q * 2 ^ (52 - Int.log 2 q)⌋ := by
    rw [Int.le_floor]
    rw [show (((2:ℤ) ^ 52 : ℤ) : ℚ) = (2:ℚ) ^ (52:ℤ) by norm_num]
    exact fl_scale_lower h
  have := rne_floor_le (q * 2 ^ (52 - Int.log 2 q))
  omega

theorem rne_scaled_upper (q : ℚ) :
    rne (q * 2 ^ (52 - Int.log 2 q)) ≤ (2:ℤ) ^ 53 := by
  have hfl : ⌊q * 2 ^ (52 - Int.log 2 q)⌋ < (2:ℤ) ^ 53 := by
    rw [Int.floor_lt]
    rw [show (((2:ℤ) ^ 53 : ℤ) : ℚ) = (2:ℚ) ^ (53:ℤ) by norm_num]
    exact fl_scale_upper q
  have := rne_le_floor_add_one (q * 2 ^ (52 - Int.log 2 q))
  omega

theorem fl_zero : fl 0 = 0 := by
  unfold fl
  rw [if_pos le_rfl]

theorem fl_nonneg (q : ℚ) : 0 ≤ fl q := by
  unfold fl
  split_ifs with h
  · exact le_rfl
  · push_neg at h
    have hr : (0:ℤ) ≤ rne (q * 2 ^ (52 - Int.log 2 q)) := by
      have := rne_scaled_lower h
      have hp : (0:ℤ) < 2 ^ 52 := by positivity
      omega
    exact mul_nonneg (by exact_mod_cast hr) (by positivity)

theorem fl_mono {q r : ℚ} (h : q ≤ r) : fl q ≤ fl r := by
  rcases le_or_lt q 0 with hq | hq
  · rw [show fl q = 0 by unfold fl; rw [if_pos hq]]
    exact fl_nonneg r
  · have hr : 0 < r := lt_of_lt_of_le hq h
    unfold fl
    rw [if_neg (not_le.mpr hq), if_neg (not_le.mpr hr)]
    have hlog : Int.log 2 q ≤ Int.log 2 r := Int.log_mono_right hq h
    rcases eq_or_lt_of_le hlog with he | hlt
    · rw [← he]
      have hs : rne (q * 2 ^ (52 - Int.log 2 q)) ≤ rne (r * 2 ^ (52 - Int.log 2 q)) :=
        rne_mono (mul_le_mul_of_nonneg_right h (by positivity))
      exact mul_le_mul_of_nonneg_right (by exact_mod_cast hs) (by positivity)
    · calc (rne (q * 2 ^ (52 - Int.log 2 q)) : ℚ) * 2 ^ (Int.log 2 q - 52)
          ≤ (2:ℚ) ^ (53:ℤ) * 2 ^ (Int.log 2 q - 52) := by
            have hu := rne_scaled_upper q
            refine mul_le_mul_of_nonneg_right ?_ (by positivity)
            rw [show (2:ℚ) ^ (53:ℤ) = (((2:ℤ) ^ 53 : ℤ) : ℚ) by norm_num]
            exact_mod_cast hu
        _ = (2:ℚ) ^ (Int.log 2 q + 1) := by
            rw [← zpow_add₀ (by norm_num : (2:ℚ) ≠ 0)]
            congr 1
            ring
        _ ≤ (2:ℚ) ^ (Int.log 2 r) := zpow_le_zpow_right₀ (by norm_num) (by omega)
        _ = (2:ℚ) ^ (52:ℤ) * 2 ^ (Int.log 2 r - 52) := by
            rw [← zpow_add₀ (by norm_num : (2:ℚ) ≠ 0)]
            congr 1
            ring
        _ ≤ (rne (r * 2 ^ (52 - Int.log 2 r)) : ℚ) * 2 ^ (Int.log 2 r - 52) := by
            have hl := rne_scaled_lower hr
            refine mul_le_mul_of_nonneg_right ?_ (by positivity)
            rw [show (2:ℚ) ^ (52:ℤ) = (((2:ℤ) ^ 52 : ℤ) : ℚ) by norm_num]
            exact_mod_cast hl

theorem log2_eq_of {q : ℚ} {z : ℤ} (h1 : (2:ℚ) ^ z ≤ q) (h2 : q < 2 ^ (z + 1)) :
    Int.log 2 q = z := by
  have hq : 0 < q := lt_of_lt_of_le (by positivity) h1
  by_contra hne
  rcases lt_or_gt_of_ne hne with hlt | hgt
  · have hs : q < (2:ℚ) ^ (Int.log 2 q + 1) :=
      Int.lt_zpow_succ_log_self (show 1 < 2 by norm_num) q
    have h3 : (2:ℚ) ^ (Int.log 2 q + 1) ≤ 2 ^ z := zpow_le_zpow_right₀ (by norm_num) (by omega)
    linarith
  · have hs : (2:ℚ) ^ (Int.log 2 q) ≤ q :=
      Int.zpow_log_le_self (show 1 < 2 by norm_num) hq
    have h3 : (2:ℚ) ^ (z + 1) ≤ 2 ^ (Int.log 2 q) := zpow_le_zpow_right₀ (by norm_num) (by omega)
    linarith

theorem fl_of_sig {q : ℚ} {s : ℤ} (e : ℤ) (hq : q = (s:ℚ) * 2 ^ (e - 52))
    (hlo : (2:ℤ) ^ 52 ≤ s) (hhi : s < 2 ^ 53) : fl q = q := by
  have hsq : (2:ℚ) ^ (52:ℤ) ≤ (s:ℚ) := by
    rw [show (2:ℚ) ^ (52:ℤ) = (((2:ℤ) ^ 52 : ℤ) : ℚ) by norm_num]
    exact_mod_cast hlo
  have hsq2 : (s:ℚ) < 2 ^ (53:ℤ) := by
    rw [show (2:ℚ) ^ (53:ℤ) = (((2:ℤ) ^ 53 : ℤ) : ℚ) by norm_num]
    exact_mod_cast hhi
  have hqpos : 0 < q := by
    rw [hq]
    have : (0:ℚ) < (s:ℚ) := lt_of_lt_of_le (by positivity) hsq
    positivity
  have hlog : Int.log 2 q = e := by
    apply log2_eq_of
    · rw [hq]
      calc (2:ℚ) ^ e = 2 ^ (52:ℤ) * 2 ^ (e - 52) := by
            rw [← zpow_add₀ (by norm_num : (2:ℚ) ≠ 0)]
            congr 1
            ring
        _ ≤ (s:ℚ) * 2 ^ (e - 52) := mul_le_mul_of_nonneg_right hsq (by positivity)
    · rw [hq]
      calc (s:ℚ) * 2 ^ (e - 52) < 2 ^ (53:ℤ) * 2 ^ (e - 52) :=
            mul_lt_mul_of_pos_right hsq2 (by positivity)
        _ = 2 ^ (e + 1) := by
            rw [← zpow_add₀ (by norm_num : (2:ℚ) ≠ 0)]
            congr 1
            ring
  unfold fl
  rw [if_neg (not_le.mpr hqpos), hlog, hq]
  have hscale : (s:ℚ) * 2 ^ (e - 52) * 2 ^ (52 - e) = (s:ℚ) := by
    rw [mul_assoc, ← zpow_add₀ (by norm_num : (2:ℚ) ≠ 0)]
    norm_num
  rw [hscale, rne_intCast]

theorem fl_one : fl 1 = 1 :=
  fl_of_sig 0
    (by norm_num : (1:ℚ) = ((4503599627370496:ℤ):ℚ) * 2 ^ ((0:ℤ) - 52))
    (by norm_num) (by norm_num)

theorem fl_hundred : fl 100 = 100 :=
  fl_of_sig 6
    (by norm_num : (100:ℚ) = ((7036874417766400:ℤ):ℚ) * 2 ^ ((6:ℤ) - 52))
    (by norm_num) (by norm_num)

theorem jsRoundPct_zero (n : Nat) : jsRoundPct 0 n = 0 := by
  unfold jsRoundPct jsMathRound
  rw [Nat.cast_zero, zero_div, fl_zero, zero_mul, fl_zero, zero_add]
  rw [show ⌊(1:ℚ)/2⌋ = 0 by norm_num [Int.floor_eq_iff]]
  rfl

theorem jsRoundPct_full {n : Nat} (h : 0 < n) : jsRoundPct n n = 100 := by
  unfold jsRoundPct jsMathRound
  have hn : ((n:ℚ)) ≠ 0 := Nat.cast_ne_zero.mpr (Nat.pos_iff_ne_zero.mp h)
  rw [div_self hn, fl_one, one_mul, fl_hundred]
  rw [show ⌊(100:ℚ) + 1/2⌋ = 100 by norm_num [Int.floor_eq_iff]]
  rfl

theorem jsRoundPct_mono {a b n : Nat} (h : a ≤ b) :
    jsRoundPct a n ≤ jsRoundPct b n := by
  unfold jsRoundPct jsMathRound
  apply Int.toNat_le_toNat
  apply Int.floor_le_floor
  apply add_le_add_right
  apply fl_mono
  apply mul_le_mul_of_nonneg_right _ (by norm_num)
  apply fl_mono
  rcases Nat.eq_zero_or_pos n with hn | hn
  · subst hn
    rw [Nat.cast_zero, div_zero, div_zero]
  · rw [div_eq_mul_inv, div_eq_mul_inv]
    exact mul_le_mul_of_nonneg_right (by exact_mod_cast h) (by positivity)

theorem rne_eval_lt {t : ℚ} {f : ℤ} (hf : ⌊t⌋ = f) (hfr : Int.fract t < 1/2) :
    rne t = f := by
  unfold rne
  rw [if_pos hfr, hf]

theorem fl_eval {q : ℚ} {e f : ℤ} (hq : 0 < q) (hlog : Int.log 2 q = e)
    (hrne : rne (q * 2 ^ (52 - e)) = f) :
    fl q = (f : ℚ) * 2 ^ (e - 52) := by
  unfold fl
  rw [if_neg (not_le.mpr hq), hlog, hrne]

theorem coverage_countP (fm : List String → String → Bool)
    (videos : List PlaylistVideoItem) (toc : List String) :
    (scorePlaylistCoverage fm videos toc).coverageScore
      = jsRoundPct (toc.countP (fm (videos.map (fun v => v.title)))) toc.length := by
  unfold scorePlaylistCoverage
  dsimp only
  rw [List.countP_eq_length_filter]

/-! C2: reranker winner resolution -/

theorem rankByDensity_length (l : List VideoCandidate) :
    (rankByDensity l).length = l.length := by
  unfold rankByDensity
  rw [List.length_insertionSort, List.length_map]

theorem pickBestVideo_ranked (env : Env) (raw : List RawVideo)
    (topic : String) (mods : SearchModifiers) (pos : Nat)
    (r0 : VideoCandidate) (rest : List VideoCandidate)
    (hr : rankedPool raw mods = r0 :: rest)
    (hlen : 3 ≤ (r0 :: rest).length) :
    pickBestVideo env raw topic mods pos
      = some (entryFor
          (((r0 :: rest).find? (fun v => v.videoId ==
              (match (vibeCheckRerank env
                  (rerankInputFor (r0 :: rest) topic mods)).winnerId with
                | some w => w
                | none => r0.videoId))).getD r0)
          topic pos) := by
  have hpool : ¬ (durationPool (candidatesOf raw) mods.duration).isEmpty = true := by
    intro hemp
    rw [List.isEmpty_iff] at hemp
    have := rankByDensity_length (durationPool (candidatesOf raw) mods.duration)
    rw [hemp] at this
    unfold rankedPool at hr
    rw [hemp] at hr
    simp [rankByDensity] at hr
  unfold pickBestVideo
  dsimp only
  rw [if_neg hpool]
  unfold rankedPool at hr
  rw [hr]
  dsimp only
  rw [if_pos (show (USE_RERANKER && decide (3 ≤ (r0 :: rest).length)) = true by
    simp only [List.length_cons] at hlen
    simp [USE_RERANKER]
    omega)]

theorem find?_head (r0 : VideoCandidate) (rest : List VideoCandidate) :
    ((r0 :: rest).find? (fun v => v.videoId == r0.videoId)).getD r0 = r0 := by
  have : (r0.videoId == r0.videoId) = true := by simp
  simp [List.find?_cons, this]

/-! C5: hunt loop -/

theorem huntLoop_cons (env : Env) (toc : List String) (st : HuntState)
    (p : PlaylistHit) (ps : List PlaylistHit) :
    huntLoop env toc st (p :: ps)
      = (if (getPlaylistVideos env p.listId).length < 3 then
          huntLoop env toc { st with searches := st.searches + 1 } ps
         else
          let scored := scorePlaylistCoverage env.fuseTitles
            (getPlaylistVideos env p.listId) toc
          let st1 := if st.bestScore < scored.coverageScore then
              { best := some (mkAnchorPlaylist p (getPlaylistVideos env p.listId)
                  scored),
                bestScore := scored.coverageScore, searches := st.searches + 1 }
            else { st with searches := st.searches + 1 }
          if 80 ≤ st1.bestScore then st1 else huntLoop env toc st1 ps) := rfl

theorem huntEvaluated_cons (env : Env) (toc : List String)
    (p : PlaylistHit) (ps : List PlaylistHit) :
    huntEvaluated env toc (p :: ps)
      = (if (getPlaylistVideos env p.listId).length < 3 then
          huntEvaluated env toc ps
         else
          let c := (scorePlaylistCoverage env.fuseTitles
            (getPlaylistVideos env p.listId) toc).coverageScore
          if 80 ≤ c then [(p, c)] else (p, c) :: huntEvaluated env toc ps) := rfl

theorem huntLoop_spec (env : Env) (toc : List String) :
    ∀ (ps : List PlaylistHit) (st : HuntState), st.bestScore < 80 →
      ((huntLoop env toc st ps).bestScore
          = max st.bestScore (natListMax ((huntEvaluated env toc ps).map
              (fun pc => pc.2))))
      ∧ (((huntLoop env toc st ps).best = st.best
            ∧ (huntLoop env toc st ps).bestScore = st.bestScore)
         ∨ ∃ pc ∈ huntEvaluated env toc ps,
            (huntLoop env toc st ps).best = some (anchorFor env toc pc.1)
              ∧ (huntLoop env toc st ps).bestScore = pc.2) := by
  intro ps
  induction ps with
  | nil =>
    intro st _
    refine ⟨?_, Or.inl ⟨rfl, rfl⟩⟩
    show st.bestScore = max st.bestScore (natListMax [])
    simp [natListMax]
  | cons p ps ih =>
    intro st hst
    rw [huntLoop_cons, huntEvaluated_cons]
    by_cases hv : (getPlaylistVideos env p.listId).length < 3
    · rw [if_pos hv, if_pos hv]
      have := ih { st with searches := st.searches + 1 } hst
      exact this
    · rw [if_neg hv, if_neg hv]
      dsimp only
      set c := (scorePlaylistCoverage env.fuseTitles
        (getPlaylistVideos env p.listId) toc).coverageScore with hc
      by_cases h80 : 80 ≤ c
      · have hupd : st.bestScore < c := lt_of_lt_of_le hst h80
        rw [if_pos hupd]
        dsimp only
        rw [if_pos h80, if_pos h80]
        constructor
        · show c = max st.bestScore (natListMax [c])
          simp only [natListMax]
          omega
        · right
          exact ⟨(p, c), List.mem_singleton.mpr rfl, rfl, rfl⟩
      · rw [if_neg h80]
        by_cases hupd : st.bestScore < c
        · have hst1 : c < 80 := by omega
          rw [if_pos hupd]
          dsimp only
          rw [if_neg h80]
          obtain ⟨ihs, ihb⟩ := ih
            { best := some (mkAnchorPlaylist p (getPlaylistVideos env p.listId)
                (scorePlaylistCoverage env.fuseTitles
                  (getPlaylistVideos env p.listId) toc)),
              bestScore := c, searches := st.searches + 1 } hst1
          constructor
          · rw [ihs]
            simp only [List.map_cons, natListMax]
            omega
          · rcases ihb with ⟨hb, hs⟩ | ⟨pc, hpc, hb, hs⟩
            · right
              refine ⟨(p, c), List.mem_cons_self _ _, ?_, ?_⟩
              · rw [hb]; rfl
              · rw [hs]
            · right
              exact ⟨pc, List.mem_cons_of_mem _ hpc, hb, hs⟩
        · rw [if_neg hupd]
          dsimp only
          rw [if_neg (by omega : ¬ 80 ≤ st.bestScore)]
          obtain ⟨ihs, ihb⟩ := ih { st with searches := st.searches + 1 } hst
          constructor
          · rw [ihs]
            simp only [List.map_cons, natListMax]
            omega
          · rcases ihb with ⟨hb, hs⟩ | ⟨pc, hpc, hb, hs⟩
            · left; exact ⟨hb, hs⟩
            · right
              exact ⟨pc, List.mem_cons_of_mem _ hpc, hb, hs⟩

/-- C5 (confirmed): whenever the playlist search succeeds with at least
one playlist, `huntForAnchor` returns `found := true` iff some evaluated
playlist reaches a coverage score of 50; in that case the returned
anchor is an evaluated playlist of maximal coverage score; and when no
evaluated playlist reaches 50 the result is `found := false` with at
most 3 fallback channel names. -/
theorem C5_anchor_selection (env : Env) (subject : String) (toc : List String)
    (languageSuffix : String) (res : SearchOutcome)
    (hq : env.ytSearchQ (jsTrim (subject ++ " full course playlist " ++ languageSuffix))
      = Except.ok res)
    (hne : res.playlists ≠ []) :
    ((huntForAnchor env subject toc languageSuffix).found = true
      ↔ ∃ pc ∈ huntEvaluated env toc (res.playlists.take 5), 50 ≤ pc.2)
    ∧ ((huntForAnchor env subject toc languageSuffix).found = true
      → ∃ pc ∈ huntEvaluated env toc (res.playlists.take 5),
          (huntForAnchor env subject toc languageSuffix).anchor
            = some (anchorFor env toc pc.1)
          ∧ ∀ qc ∈ huntEvaluated env toc (res.playlists.take 5), qc.2 ≤ pc.2)
    ∧ ((huntForAnchor env subject toc languageSuffix).found = false
      → ∃ chs, (huntForAnchor env subject toc languageSuffix).fallbackChannels
            = some chs
          ∧ chs.length ≤ 3) := by
  obtain ⟨hsc, hb⟩ := huntLoop_spec env toc (res.playlists.take 5)
    { best := none, bestScore := 0, searches := 1 } (by decide)
  dsimp only at hsc hb
  have hM : (huntLoop env toc { best := none, bestScore := 0, searches := 1 }
      (res.playlists.take 5)).bestScore
      = natListMax ((huntEvaluated env toc (res.playlists.take 5)).map
          (fun pc => pc.2)) := by
    rw [hsc]
    exact max_eq_right (Nat.zero_le _)
  have hempty : ¬ res.playlists.isEmpty = true := by
    simp [List.isEmpty_iff, hne]
  have hr : huntForAnchor env subject toc languageSuffix
      = (match (huntLoop env toc { best := none, bestScore := 0, searches := 1 }
            (res.playlists.take 5)).best with
        | some bestAnchor =>
          if MIN_COVERAGE_PCT ≤ (huntLoop env toc
              { best := none, bestScore := 0, searches := 1 }
              (res.playlists.take 5)).bestScore then
            { found := true, anchor := some bestAnchor, fallbackChannels := none,
              searchesPerformed := (huntLoop env toc
                { best := none, bestScore := 0, searches := 1 }
                (res.playlists.take 5)).searches }
          else
            { found := false, anchor := none,
              fallbackChannels := some ((res.playlists.take 3).filterMap
                (fun p => jsTruthyString p.authorName)),
              searchesPerformed := (huntLoop env toc
                { best := none, bestScore := 0, searches := 1 }
                (res.playlists.take 5)).searches }
        | none =>
            { found := false, anchor := none,
              fallbackChannels := some ((res.playlists.take 3).filterMap
                (fun p => jsTruthyString p.authorName)),
              searchesPerformed := (huntLoop env toc
                { best := none, bestScore := 0, searches := 1 }
                (res.playlists.take 5)).searches }) := by
    unfold huntForAnchor
    dsimp only
    rw [hq]
    dsimp only
    rw [if_neg hempty]
  have hfb : ((res.playlists.take 3).filterMap
      (fun p => jsTruthyString p.authorName)).length ≤ 3 :=
    le_trans (List.length_filterMap_le _ _) (List.length_take_le _ _)
  cases hbest : (huntLoop env toc { best := none, bestScore := 0, searches := 1 }
      (res.playlists.take 5)).best with
  | none =>
    rw [hbest] at hr
    dsimp only at hr
    -- found is false here
    refine ⟨?_, ?_, ?_⟩
    · constructor
      · intro hf
        rw [hr] at hf
        simp at hf
      · rintro ⟨pc, hpc, h50⟩
        exfalso
        rcases hb with ⟨hb1, hb2⟩ | ⟨qc, hqc, hb1, hb2⟩
        · have hle : pc.2 ≤ natListMax ((huntEvaluated env toc
              (res.playlists.take 5)).map (fun pc => pc.2)) :=
            natListMax_le_mem (List.mem_map_of_mem _ hpc)
          rw [← hM, hb2] at hle
          omega
        · rw [hbest] at hb1
          exact absurd hb1 (by simp)
    · intro hf
      rw [hr] at hf
      simp at hf
    · intro _
      rw [hr]
      exact ⟨_, rfl, hfb⟩
  | some a =>
    rw [hbest] at hr
    dsimp only at hr
    by_cases h50 : MIN_COVERAGE_PCT ≤ (huntLoop env toc
        { best := none, bestScore := 0, searches := 1 }
        (res.playlists.take 5)).bestScore
    · rw [if_pos h50] at hr
      rcases hb with ⟨hb1, hb2⟩ | ⟨pc, hpc, hb1, hb2⟩
      · exfalso
        unfold MIN_COVERAGE_PCT at h50
        rw [hb2] at h50
        omega
      · rw [hbest] at hb1
        rw [Option.some.injEq] at hb1
        refine ⟨?_, ?_, ?_⟩
        · constructor
          · intro _
            refine ⟨pc, hpc, ?_⟩
            unfold MIN_COVERAGE_PCT at h50
            omega
          · intro _
            rw [hr]
        · intro _
          refine ⟨pc, hpc, ?_, ?_⟩
          · rw [hr, hb1]
          · intro qc hqc
            have hle := natListMax_le_mem (List.mem_map_of_mem (fun pc => pc.2) hqc)
            dsimp only at hle
            rw [← hM] at hle
            omega
        · intro hf
          rw [hr] at hf
          simp at hf
    · rw [if_neg h50] at hr
      refine ⟨?_, ?_, ?_⟩
      · constructor
        · intro hf
          rw [hr] at hf
          simp at hf
        · rintro ⟨pc, hpc, hp50⟩
          exfalso
          have : 50 ≤ natListMax ((huntEvaluated env toc
              (res.playlists.take 5)).map (fun pc => pc.2)) :=
            le_trans hp50 (natListMax_le_mem (List.mem_map_of_mem _ hpc))
          unfold MIN_COVERAGE_PCT at h50
          omega
      · intro hf
        rw [hr] at hf
        simp at hf
      · intro _
        rw [hr]
        exact ⟨_, rfl, hfb⟩

/-- C7 (confirmed): for every environment, `searchForTopic` issues the
primary catalog query and retries at most once: the trace of issued
queries is either `[primary]` or `[primary, fallback]`, and the retry
with the simpler fallback query happens exactly when the first query
returned successfully with zero results.  A thrown first query yields
`none` without retrying (the `catch` returns null); an empty first
result followed by a thrown or empty retry also yields `none`.  The
model is a total function, so resolving one topic never throws. -/
theorem C7_retry_and_containment (env : Env) (topic subject : String) (mods : SearchModifiers)
    (pos : Nat) :
    ((searchForTopicT env topic subject mods pos).2
        = [gapSearchQuery topic subject mods]
      ∨ (searchForTopicT env topic subject mods pos).2
        = [gapSearchQuery topic subject mods, gapFallbackQuery topic mods])
    ∧ ((searchForTopicT env topic subject mods pos).2
        = [gapSearchQuery topic subject mods, gapFallbackQuery topic mods]
      ↔ ∃ r, env.ytSearchQ (gapSearchQuery topic subject mods) = Except.ok r
          ∧ r.videos = [])
    ∧ (env.ytSearchQ (gapSearchQuery topic subject mods) = Except.error ()
      → searchForTopic env topic subject mods pos = none)
    ∧ (∀ r, env.ytSearchQ (gapSearchQuery topic subject mods) = Except.ok r
      → r.videos = []
      → env.ytSearchQ (gapFallbackQuery topic mods) = Except.error ()
      → searchForTopic env topic subject mods pos = none)
    ∧ (∀ r r2, env.ytSearchQ (gapSearchQuery topic subject mods) = Except.ok r
      → r.videos = []
      → env.ytSearchQ (gapFallbackQuery topic mods) = Except.ok r2
      → r2.videos = []
      → searchForTopic env topic subject mods pos = none) := by
  have hT : searchForTopicT env topic subject mods pos
      = (match env.ytSearchQ (gapSearchQuery topic subject mods) with
        | Except.error _ => (none, [gapSearchQuery topic subject mods])
        | Except.ok result =>
          if result.videos.isEmpty then
            match env.ytSearchQ (gapFallbackQuery topic mods) with
            | Except.error _ =>
                (none, [gapSearchQuery topic subject mods,
                        gapFallbackQuery topic mods])
            | Except.ok fallbackResult =>
              if fallbackResult.videos.isEmpty then
                (none, [gapSearchQuery topic subject mods,
                        gapFallbackQuery topic mods])
              else
                (pickBestVideo env fallbackResult.videos topic mods pos,
                 [gapSearchQuery topic subject mods,
                  gapFallbackQuery topic mods])
          else
            (pickBestVideo env result.videos topic mods pos,
             [gapSearchQuery topic subject mods])) := rfl
  cases hq1 : env.ytSearchQ (gapSearchQuery topic subject mods) with
  | error u =>
    cases u
    rw [hq1] at hT
    dsimp only at hT
    refine ⟨Or.inl (by rw [hT]), ?_, ?_, ?_, ?_⟩
    · constructor
      · intro htr
        rw [hT] at htr
        simp at htr
      · rintro ⟨r, hr, _⟩
        exact absurd hr (by simp)
    · intro _
      unfold searchForTopic
      rw [hT]
    · intro r hr
      exact absurd hr (by simp)
    · intro r r2 hr
      exact absurd hr (by simp)
  | ok result =>
    rw [hq1] at hT
    dsimp only at hT
    by_cases hv : result.videos.isEmpty = true
    · rw [if_pos hv] at hT
      have hvnil : result.videos = [] := List.isEmpty_iff.mp hv
      cases hq2 : env.ytSearchQ (gapFallbackQuery topic mods) with
      | error u2 =>
        cases u2
        rw [hq2] at hT
        dsimp only at hT
        refine ⟨Or.inr (by rw [hT]), ?_, ?_, ?_, ?_⟩
        · exact ⟨fun _ => ⟨result, rfl, hvnil⟩, fun _ => by rw [hT]⟩
        · intro he
          exact absurd he (by simp)
        · intro r hr _ _
          unfold searchForTopic
          rw [hT]
        · intro r r2 hr hre h2
          exact absurd h2 (by simp)
      | ok fallbackResult =>
        rw [hq2] at hT
        dsimp only at hT
        by_cases hv2 : fallbackResult.videos.isEmpty = true
        · rw [if_pos hv2] at hT
          refine ⟨Or.inr (by rw [hT]), ?_, ?_, ?_, ?_⟩
          · exact ⟨fun _ => ⟨result, rfl, hvnil⟩, fun _ => by rw [hT]⟩
          · intro he
            exact absurd he (by simp)
          · intro r hr hre h2
            exact absurd h2 (by simp)
          · intro r r2 _ _ _ _
            unfold searchForTopic
            rw [hT]
        · rw [if_neg hv2] at hT
          refine ⟨Or.inr (by rw [hT]), ?_, ?_, ?_, ?_⟩
          · exact ⟨fun _ => ⟨result, rfl, hvnil⟩, fun _ => by rw [hT]⟩
          · intro he
            exact absurd he (by simp)
          · intro r hr hre h2
            exact absurd h2 (by simp)
          · intro r r2 hr hre h2 h2e
            exfalso
            rw [Except.ok.injEq] at h2
            subst h2
            rw [List.isEmpty_iff] at hv2
            exact hv2 h2e
    · rw [if_neg hv] at hT
      refine ⟨Or.inl (by rw [hT]), ?_, ?_, ?_, ?_⟩
      · constructor
        · intro htr
          rw [hT] at htr
          simp at htr
        · rintro ⟨r, hr, hre⟩
          rw [Except.ok.injEq] at hr
          subst hr
          rw [List.isEmpty_iff] at hv
          exact absurd hre hv
      · intro he
        exact absurd he (by simp)
      · intro r hr hre _
        rw [Except.ok.injEq] at hr
        subst hr
        rw [List.isEmpty_iff] at hv
        exact absurd hre hv
      · intro r r2 hr hre _ _
        rw [Except.ok.injEq] at hr
        subst hr
        rw [List.isEmpty_iff] at hv
        exact absurd hre hv

/-! Claim theorems draft -/

/-- C2 (corrected): when the ranked pool has at least 3 candidates, a
reranker outcome of `none` (failure, missing key, unparseable output)
never blocks resolution — `pickBestVideo` returns the Scorer's
top-ranked candidate; a returned `winnerId` that is not present in the
full ranked pool is ignored in favour of the top-ranked candidate; but a
`winnerId` that is present anywhere in the ranked pool — even beyond the
submitted top 5 — is accepted (the code validates against the whole
ranked pool, not the top-5 slice it submitted; see
`C2_counterexample`). -/
theorem C2_reranker_fallback (env : Env) (raw : List RawVideo) (topic : String)
    (mods : SearchModifiers) (pos : Nat) (r0 : VideoCandidate)
    (rest : List VideoCandidate)
    (hr : rankedPool raw mods = r0 :: rest)
    (hlen : 3 ≤ (r0 :: rest).length) :
    ((vibeCheckRerank env (rerankInputFor (r0 :: rest) topic mods)).winnerId = none
      → pickBestVideo env raw topic mods pos = some (entryFor r0 topic pos))
    ∧ (∀ w, (vibeCheckRerank env (rerankInputFor (r0 :: rest) topic mods)).winnerId
          = some w
      → (∀ v ∈ r0 :: rest, v.videoId ≠ w)
      → pickBestVideo env raw topic mods pos = some (entryFor r0 topic pos))
    ∧ (∀ w v, (vibeCheckRerank env (rerankInputFor (r0 :: rest) topic mods)).winnerId
          = some w
      → (r0 :: rest).find? (fun u => u.videoId == w) = some v
      → pickBestVideo env raw topic mods pos = some (entryFor v topic pos)) := by
  have hpick := pickBestVideo_ranked env raw topic mods pos r0 rest hr hlen
  refine ⟨?_, ?_, ?_⟩
  · intro hw
    rw [hpick, hw]
    rw [find?_head]
  · intro w hw hall
    rw [hpick, hw]
    have hf : (r0 :: rest).find? (fun u => u.videoId == w) = none := by
      rw [List.find?_eq_none]
      intro v hv
      simp [hall v hv]
    rw [hf]
    rfl
  · intro w v hw hf
    rw [hpick, hw, hf]
    rfl

/-- C8 (confirmed): for every candidate whose lowercased title or
description contains a known clickbait phrase, the density score equals
the sum of the positive signals plus the −100 clickbait penalty plus the
two remaining penalties — the penalty is applied exactly once (the JS
loop breaks after the first phrase), all positive signals (which are
evaluated before the clickbait check) still contribute, and the score is
never reset to zero, so it can remain positive or go negative. -/
theorem C8_clickbait_penalty (v : VideoCandidate) (h : hasClickbaitSignal v = true) :
    (calculateDensityScore v).1
      = positiveDensityPart v + CLICKBAIT_PENALTY + highViewPart v + capsPart v := by
  have hd := densityScore_decomposition v
  rw [hd]
  unfold clickbaitPart
  rw [if_pos h]

/-- C4 (corrected): for every matcher oracle, playlist and non-empty
topic list, the coverage score is `Math.round` of the binary64
evaluation of `matched / total * 100` (the `jsRoundPct` pipeline: round
the quotient to a double, round the product with 100 to a double, then
`Math.round` the result) with `matched` the number of topics the
matcher scores below threshold against the playlist's titles; it is 0
when no topic matches, 100 when all do, and monotone non-decreasing
when the matched set grows.  The binary64 evaluation is *not* exact
rounding of the rational `matched / total * 100`: at `matched = 23`,
`total = 40` the program computes 57 while the exact half-up rounding
of the spec's formula gives 58 — see `C4_counterexample`. -/
theorem C4_coverage_score (fm : List String → String → Bool)
    (videos : List PlaylistVideoItem) (toc : List String) (h : toc ≠ []) :
    ((scorePlaylistCoverage fm videos toc).coverageScore
      = jsRoundPct (toc.countP (fm (videos.map (fun v => v.title)))) toc.length)
    ∧ ((∀ t ∈ toc, fm (videos.map (fun v => v.title)) t = false)
      → (scorePlaylistCoverage fm videos toc).coverageScore = 0)
    ∧ ((∀ t ∈ toc, fm (videos.map (fun v => v.title)) t = true)
      → (scorePlaylistCoverage fm videos toc).coverageScore = 100)
    ∧ (∀ fm' : List String → String → Bool,
        (∀ t ∈ toc, fm (videos.map (fun v => v.title)) t = true
          → fm' (videos.map (fun v => v.title)) t = true)
      → (scorePlaylistCoverage fm videos toc).coverageScore
          ≤ (scorePlaylistCoverage fm' videos toc).coverageScore) := by
  have hpos : 0 < toc.length := List.length_pos.mpr h
  refine ⟨coverage_countP fm videos toc, ?_, ?_, ?_⟩
  · intro hz
    rw [coverage_countP]
    have : toc.countP (fm (videos.map (fun v => v.title))) = 0 := by
      rw [List.countP_eq_length_filter]
      rw [List.filter_eq_nil_iff.mpr (fun t ht => by simp [hz t ht])]
      rfl
    rw [this]
    exact jsRoundPct_zero _
  · intro hall
    rw [coverage_countP]
    have : toc.countP (fm (videos.map (fun v => v.title))) = toc.length := by
      rw [List.countP_eq_length_filter, List.filter_eq_self.mpr hall]
    rw [this]
    exact jsRoundPct_full hpos
  · intro fm' hmono
    rw [coverage_countP, coverage_countP]
    exact jsRoundPct_mono (List.countP_mono_left hmono)

/-- C4 counterexample: a playlist whose matcher matches exactly 23 of
40 topics scores 57, because the binary64 value of `(23 / 40) * 100` is
just below 57.5, while the exact half-up rounding the spec's formula
describes gives 58 — the claimed formula `round(matched / total * 100)`
read as exact rational rounding does not hold of the program. -/
theorem C4_counterexample :
    toc40.length = 40
    ∧ toc40.countP (fm40 ((([]:List PlaylistVideoItem)).map (fun v => v.title))) = 23
    ∧ (scorePlaylistCoverage fm40 [] toc40).coverageScore = 57
    ∧ specRoundPct 23 40 = 58
    ∧ (scorePlaylistCoverage fm40 [] toc40).coverageScore
        ≠ specRoundPct
            (toc40.countP (fm40 ((([]:List PlaylistVideoItem)).map (fun v => v.title))))
            toc40.length := by
  have h40 : toc40.length = 40 := by decide
  have h23 : toc40.countP (fm40 ((([]:List PlaylistVideoItem)).map (fun v => v.title)))
      = 23 := by decide
  have h57 : jsRoundPct 23 40 = 57 := by
    have hlog1 : Int.log 2 ((23:ℚ)/40) = -1 := log2_eq_of (by norm_num) (by norm_num)
    have hfloor1 : ⌊(25895697857380352:ℚ)/5⌋ = 5179139571476070 := by
      norm_num [Int.floor_eq_iff]
    have hrne1 : rne ((23:ℚ)/40 * 2 ^ ((52:ℤ) - -1)) = 5179139571476070 := by
      rw [show (23:ℚ)/40 * 2 ^ ((52:ℤ) - -1) = 25895697857380352/5 by norm_num]
      exact rne_eval_lt hfloor1 (by rw [fract_eq, hfloor1]; norm_num)
    have hfl1 : fl ((23:ℚ)/40) = 2589569785738035/4503599627370496 := by
      rw [fl_eval (by norm_num) hlog1 hrne1]
      norm_num
    have hlog2 : Int.log 2 ((2589569785738035:ℚ)/4503599627370496 * 100) = 5 :=
      log2_eq_of (by norm_num) (by norm_num)
    have hfloor2 : ⌊(64739244643450875:ℚ)/8⌋ = 8092405580431359 := by
      norm_num [Int.floor_eq_iff]
    have hrne2 : rne ((2589569785738035:ℚ)/4503599627370496 * 100 * 2 ^ ((52:ℤ) - 5))
        = 8092405580431359 := by
      rw [show (2589569785738035:ℚ)/4503599627370496 * 100 * 2 ^ ((52:ℤ) - 5)
            = 64739244643450875/8 by norm_num]
      exact rne_eval_lt hfloor2 (by rw [fract_eq, hfloor2]; norm_num)
    have hfl2 : fl ((2589569785738035:ℚ)/4503599627370496 * 100)
        = 8092405580431359/140737488355328 := by
      rw [fl_eval (by norm_num) hlog2 hrne2]
      norm_num
    unfold jsRoundPct jsMathRound
    rw [show ((23:ℕ):ℚ) / ((40:ℕ):ℚ) = (23:ℚ)/40 by norm_num]
    rw [hfl1, hfl2]
    rw [show ⌊(8092405580431359:ℚ)/140737488355328 + 1/2⌋ = 57 by
      norm_num [Int.floor_eq_iff]]
    rfl
  have hsc : (scorePlaylistCoverage fm40 [] toc40).coverageScore = 57 := by
    rw [coverage_countP, h23, h40, h57]
  refine ⟨h40, h23, hsc, rfl, ?_⟩
  rw [hsc, h23, h40]
  decide

/-- C1 (corrected): the positions of the entries returned by `fillGaps`
are exactly `0..len(entries)-1` in output order, for every environment,
anchor, topic list and modifiers — `resequence` renumbers
unconditionally.  `buildFromScratch`, however, never renumbers: its
entry positions are exactly the original indices of the topics that
resolved, in strictly increasing order — contiguous only when no topic
before the last resolved one failed (see `C1_counterexample`). -/
theorem C1_positions_after_build (env : Env) (anchor : AnchorPlaylist)
    (toc : List String) (s : String) (m : SearchModifiers) :
    ((fillGaps env anchor toc s m).entries.map (fun e => e.position)
      = List.range (fillGaps env anchor toc s m).entries.length)
    ∧ ((buildFromScratch env toc s m).entries.map (fun e => e.position)
      = (toc.enum.filter (fun p =>
          (searchForTopic env p.2 s m p.1).isSome)).map Prod.fst)
    ∧ List.Pairwise (fun a b => a < b)
        ((buildFromScratch env toc s m).entries.map (fun e => e.position)) := by
  refine ⟨fillGaps_positions env anchor toc s m, ?_, ?_⟩
  · have := scratch_positions env toc s m
    rw [this]
  · have hpos := scratch_positions env toc s m
    rw [hpos]
    have henum : List.Pairwise (fun p q : Nat × String => p.1 < q.1) toc.enum := by
      have := List.pairwise_lt_range toc.length
      rw [← List.enum_map_fst, List.pairwise_map] at this
      exact this
    have hfil := henum.filter (fun p => (searchForTopic env p.2 s m p.1).isSome)
    rw [List.pairwise_map]
    exact hfil

/-- C10 (confirmed): for every environment, anchor and topic list,
`gapsFilled + len(gapsFailed) = gapsFound` and
`len(entries) = len(topics) − len(gapsFailed)` hold for both `fillGaps`
and `buildFromScratch`. -/
theorem C10_accounting (env : Env) (anchor : AnchorPlaylist) (toc : List String)
    (s : String) (m : SearchModifiers) :
    ((fillGaps env anchor toc s m).gapsFilled
        + (fillGaps env anchor toc s m).gapsFailed.length
      = (fillGaps env anchor toc s m).gapsFound)
    ∧ ((fillGaps env anchor toc s m).entries.length
        + (fillGaps env anchor toc s m).gapsFailed.length
      = toc.length)
    ∧ ((buildFromScratch env toc s m).gapsFilled
        + (buildFromScratch env toc s m).gapsFailed.length
      = (buildFromScratch env toc s m).gapsFound)
    ∧ ((buildFromScratch env toc s m).entries.length
        + (buildFromScratch env toc s m).gapsFailed.length
      = toc.length) :=
  ⟨(fillGaps_accounting env anchor toc s m).1,
   (fillGaps_accounting env anchor toc s m).2,
   (scratch_accounting env toc s m).1,
   (scratch_accounting env toc s m).2⟩

/-! Witnesses and counterexamples draft -/

/-- C1 counterexample: in the environment `envC` where topic "aa" fails
and topic "bb" resolves, `buildFromScratch` on `["aa", "bb"]` returns a
single entry carrying position 1, not the contiguous `[0]` the claim
requires. -/
theorem C1_counterexample :
    (buildFromScratch envC ["aa", "bb"] "" modsFS).entries.map
        (fun e => e.position) = [1]
    ∧ (buildFromScratch envC ["aa", "bb"] "" modsFS).entries.map
        (fun e => e.position)
      ≠ List.range (buildFromScratch envC ["aa", "bb"] "" modsFS).entries.length := by
  decide

/-- C3 counterexample: with a zero-coverage anchor in environment
`envC`, the entries of `fillGaps` and `buildFromScratch` differ even
after erasing the `source` tag (the positions differ: 0 versus 1), while
`gapsFailed` coincides — refuting field-for-field equality up to
`source`. -/
theorem C3_counterexample :
    (fillGaps envC anchorE ["aa", "bb"] "" modsFS).entries.map forgetSource
      ≠ (buildFromScratch envC ["aa", "bb"] "" modsFS).entries.map forgetSource
    ∧ (fillGaps envC anchorE ["aa", "bb"] "" modsFS).gapsFailed
      = (buildFromScratch envC ["aa", "bb"] "" modsFS).gapsFailed := by
  decide

/-- C2 counterexample: with a six-candidate ranked pool, the submitted
top 5 do not contain `idF67890123`, yet when the reranker answers with
that id the resolver returns it instead of the Scorer's top pick
`idA67890123`. -/
theorem C2_counterexample :
    (((rankedPool rawPool6 modsFS).take 5).map (fun v => v.videoId)
      = ["idA67890123", "idB67890123", "idC67890123", "idD67890123",
         "idE67890123"])
    ∧ ("idF67890123" ∉ ((rankedPool rawPool6 modsFS).take 5).map
        (fun v => v.videoId))
    ∧ ((vibeCheckRerank envR (rerankInputFor (rankedPool rawPool6 modsFS)
        "tpc" modsFS)).winnerId = some "idF67890123")
    ∧ ((pickBestVideo envR rawPool6 "tpc" modsFS 0).map (fun e => e.videoId)
      = some "idF67890123")
    ∧ ((rankedPool rawPool6 modsFS).head?.map (fun v => v.videoId)
      = some "idA67890123") := by
  decide

/-- C2 witness: at a concrete pool and an environment whose reranker
yields no winner, `pickBestVideo` returns the Scorer's top-ranked
candidate. -/
theorem C2_witness :
    pickBestVideo envC rawPool6 "tpc" modsFS 0
      = some (entryFor (enrichedHit "idA67890123") "tpc" 0) :=
  (C2_reranker_fallback envC rawPool6 "tpc" modsFS 0 (enrichedHit "idA67890123")
    [enrichedHit "idB67890123", enrichedHit "idC67890123",
     enrichedHit "idD67890123", enrichedHit "idE67890123",
     enrichedHit "idF67890123"] (by decide) (by decide)).1 rfl

/-- C3 witness: at the concrete zero-coverage instance, `fillGaps`'s
entries are exactly the renumbering of `buildFromScratch`'s entries. -/
theorem C3_witness :
    (fillGaps envC anchorE ["aa", "bb"] "" modsFS).entries
      = renumber ((buildFromScratch envC ["aa", "bb"] "" modsFS).entries) :=
  (C3_zero_coverage_equivalence envC anchorE ["aa", "bb"] "" modsFS (fun _ _ => rfl)).1

/-- C4 witness: the rounding formula instantiated at a concrete matcher,
playlist and two-topic list. -/
theorem C4_witness :
    (scorePlaylistCoverage fmW videosW ["x", "y"]).coverageScore
      = jsRoundPct ((["x", "y"]).countP (fmW (videosW.map (fun v => v.title))))
          (["x", "y"]).length :=
  (C4_coverage_score fmW videosW ["x", "y"] (by decide)).1

/-- C5 witness: in environment `envH`, where one playlist with three
videos is found and the matcher matches every topic, the found/threshold
equivalence holds at the concrete inputs. -/
theorem C5_witness :
    (huntForAnchor envH "s" ["t1"] "").found = true
      ↔ ∃ pc ∈ huntEvaluated envH ["t1"] (resH.playlists.take 5), 50 ≤ pc.2 :=
  (C5_anchor_selection envH "s" ["t1"] "" resH rfl (by decide)).1

/-- C7 witness: the query-trace disjunction at a concrete environment
and topic. -/
theorem C7_witness :
    (searchForTopicT envC "aa" "" modsFS 0).2
      = [gapSearchQuery "aa" "" modsFS]
    ∨ (searchForTopicT envC "aa" "" modsFS 0).2
      = [gapSearchQuery "aa" "" modsFS, gapFallbackQuery "aa" modsFS] :=
  (C7_retry_and_containment envC "aa" "" modsFS 0).1

/-- C8 witness: a clickbait-flagged candidate whose score stays positive
(+90) and one whose score is negative (−100). -/
theorem C8_witness :
    ((calculateDensityScore cbPositive).1
      = positiveDensityPart cbPositive + CLICKBAIT_PENALTY
        + highViewPart cbPositive + capsPart cbPositive)
    ∧ 0 < (calculateDensityScore cbPositive).1
    ∧ (calculateDensityScore cbNegative).1 < 0 :=
  ⟨C8_clickbait_penalty cbPositive (by decide), by decide, by decide⟩


/-- C6: with the caller window of the `from_scratch` mode
(600–2700 seconds), a candidate pool with durations 30, 700, 1800 and
5000 seconds is filtered to exactly the 700- and 1800-second candidates;
a pool with durations 30 and 50 seconds is emptied by the window filter,
the relaxed 60-second floor also keeps none of them, and `pickBestVideo`
then resolves to `none` under every environment. -/
theorem C6_duration_filtering :
    ((durationPool (candidatesOf [mkRawDur "a" 30, mkRawDur "b" 700,
        mkRawDur "c" 1800, mkRawDur "d" 5000]) durationConfigFromScratch).map
      (fun v => v.duration.seconds) = [700, 1800])
    ∧ (durationPool (candidatesOf [mkRawDur "a" 30, mkRawDur "b" 50])
        durationConfigFromScratch = [])
    ∧ (∀ (env : Env) (pos : Nat),
        pickBestVideo env [mkRawDur "a" 30, mkRawDur "b" 50] "tpc" modsFS pos
          = none) := by
  refine ⟨by decide, by decide, ?_⟩
  intro env pos
  rfl

end PlaylistForge
